import Mathlib

/-!
Verification of the PodmanView plugin subsystem.

Go strings are modelled as `List Char` (one entry per rune); Go maps as
association lists with replace-or-append insertion.  Each definition below
is a direct translation of the function of the same name in the repository
sources (`internal/config/parser.go`, `internal/config/writer.go`,
`internal/api/plugins.go`, `internal/plugins/plugin.go`,
`internal/plugins/led/led.go`), except where a doc comment says the
component is modelled from the spec because its implementation is not part
of the available sources.
-/

/-! ## Generic association-list operations (Go map semantics) -/

/-- Go map assignment `m[k] = v`: replace the existing binding or append. -/
def insertA {α β : Type} [DecidableEq α] (m : List (α × β)) (k : α) (v : β) :
    List (α × β) :=
  match m with
  | [] => [(k, v)]
  | (k', v') :: rest => if k' = k then (k, v) :: rest else (k', v') :: insertA rest k v

/-! ## Go string helpers (`strings` / `unicode` packages) -/

/-- Go `unicode.IsSpace`: the White_Space code points recognised by Go. -/
def goIsSpace (c : Char) : Bool :=
  c = '\t' || c = '\n' || c = '\x0B' || c = '\x0C' || c = '\r' || c = ' ' ||
  c = '\u0085' || c = '\u00A0' || c = '\u1680' ||
  ('\u2000' ≤ c && c ≤ '\u200A') ||
  c = '\u2028' || c = '\u2029' || c = '\u202F' || c = '\u205F' || c = '\u3000'

/-- Go `strings.TrimSpace`: drop Unicode white space from both ends. -/
def trimSpace (cs : List Char) : List Char :=
  ((cs.dropWhile goIsSpace).reverse.dropWhile goIsSpace).reverse

/-- Go `strings.Index(haystack, needle)` for a nonempty needle. -/
def indexOfSub (needle : List Char) : List Char → Option Nat
  | [] => none
  | c :: rest =>
    if needle.isPrefixOf (c :: rest) then some 0
    else (indexOfSub needle rest).map (· + 1)

/-- ASCII lowercasing of one character (Go `strings.ToLower`, restricted to
the ASCII range; plugin names in this repository are ASCII). -/
def toLowerChar (c : Char) : Char :=
  if 'A' ≤ c ∧ c ≤ 'Z' then Char.ofNat (c.toNat + 32) else c

/-- Go `strings.ToLower` (ASCII restriction). -/
def toLowerList (cs : List Char) : List Char := cs.map toLowerChar

/-- Go `strings.Split` on one separator character. -/
def splitOnChar (sep : Char) : List Char → List (List Char)
  | [] => [[]]
  | c :: rest =>
    match splitOnChar sep rest with
    | [] => [[]]
    | g :: gs => if c = sep then [] :: g :: gs else (c :: g) :: gs

/-! ## `internal/config/parser.go` -/

/-- `isValidKey`: only letters, digits and underscore (ASCII restriction of
Go `unicode.IsLetter`/`unicode.IsDigit`). -/
def isValidKey (key : List Char) : Bool :=
  key.all (fun r => r.isAlpha || r.isDigit || r = '_')

/-- One escape pair `\\c` inside a double-quoted value (`parseQuotedValue`'s
switch): known escapes are decoded, unknown ones keep both characters. -/
def unescapePair (c : Char) : List Char :=
  if c = 'n' then ['\n']
  else if c = 't' then ['\t']
  else if c = 'r' then ['\r']
  else if c = '\\' then ['\\']
  else if c = '"' then ['"']
  else if c = '\'' then ['\'']
  else ['\\', c]

/-- `parseQuotedValue`: process escape sequences of a double-quoted value. -/
def parseQuotedValue : List Char → List Char
  | [] => []
  | [c] => [c]
  | c :: c2 :: rest =>
    if c = '\\' then unescapePair c2 ++ parseQuotedValue rest
    else c :: parseQuotedValue (c2 :: rest)

/-- `parseValue`: trim, strip an unquoted inline comment, unwrap quotes. -/
def parseValue (raw0 : List Char) : List Char :=
  let raw1 := trimSpace raw0
  if raw1 = [] then []
  else
    let raw :=
      if raw1.head? ≠ some '"' ∧ raw1.head? ≠ some '\'' then
        match indexOfSub [' ', '#'] raw1 with
        | some idx => trimSpace (raw1.take idx)
        | none => raw1
      else raw1
    if 2 ≤ raw.length then
      if raw.head? = some '"' ∧ raw.getLast? = some '"' then
        parseQuotedValue ((raw.drop 1).dropLast)
      else if raw.head? = some '\'' ∧ raw.getLast? = some '\'' then
        (raw.drop 1).dropLast
      else raw
    else raw

/-- `parseLine`: one line of a `.env` file. -/
def parseLine (line0 : List Char) : Option (List Char × List Char) :=
  let line := trimSpace line0
  if line = [] ∨ line.head? = some '#' then none
  else
    match line.findIdx? (· = '=') with
    | none => none
    | some eqIndex =>
      let key := trimSpace (line.take eqIndex)
      if key = [] ∨ ¬ isValidKey key then none
      else some (key, parseValue (line.drop (eqIndex + 1)))

/-- `ParseEnvFile`: the file content as the list of scanner lines (the
`bufio.Scanner` split; no produced line contains a newline), folded into a
Go map. -/
def ParseEnvFile (lines : List (List Char)) : List (List Char × List Char) :=
  lines.foldl
    (fun acc line =>
      match parseLine line with
      | some kv => insertA acc kv.1 kv.2
      | none => acc)
    []

/-! ## `internal/config/writer.go` -/

/-- `needsQuoting`: true when the value holds a character the writer must
protect. -/
def needsQuoting (value : List Char) : Bool :=
  if value = [] then false
  else value.any (fun r =>
    r = ' ' || r = '\t' || r = '\n' || r = '\r' || r = '"' || r = '\'' ||
    r = '#' || r = '\\')

/-- One character of `escapeValue`'s switch. -/
def escChar (c : Char) : List Char :=
  if c = '"' then ['\\', '"']
  else if c = '\\' then ['\\', '\\']
  else if c = '\n' then ['\\', 'n']
  else if c = '\t' then ['\\', 't']
  else if c = '\r' then ['\\', 'r']
  else [c]

/-- `escapeValue`: escape special characters for double-quoted values. -/
def escapeValue (value : List Char) : List Char := value.flatMap escChar

/-- `formatEnvLine`: one `KEY=value` line, quoting when needed. -/
def formatEnvLine (key value : List Char) : List Char :=
  if needsQuoting value then key ++ '=' :: '"' :: (escapeValue value ++ ['"'])
  else key ++ '=' :: value

/-- `envTemplate`: fixed layout of the generated `.env` file; entries with an
empty key are pure comment lines. -/
def envTemplate : List (List Char × List Char) :=
  [([], ("# PodmanView Configuration").toList),
   ([], ("# Generated automatically on first run").toList),
   ([], []),
   ([], ("# ===================").toList),
   ([], ("# Server Settings").toList),
   ([], ("# ===================").toList),
   ([], []),
   (("PODMANVIEW_ADDR").toList, ("# Server address (host:port)").toList),
   ([], []),
   ([], ("# ===================").toList),
   ([], ("# Security Settings").toList),
   ([], ("# ===================").toList),
   ([], []),
   (("PODMANVIEW_JWT_SECRET").toList,
     ("# JWT secret key (auto-generated, do not share!)").toList),
   (("PODMANVIEW_JWT_EXPIRATION").toList,
     ("# JWT token expiration in seconds (default: 24 hours)").toList),
   (("PODMANVIEW_NO_AUTH").toList,
     ("# Disable authentication (true/false, for development only!)").toList),
   ([], []),
   ([], ("# ===================").toList),
   ([], ("# Podman Settings").toList),
   ([], ("# ===================").toList),
   ([], []),
   (("PODMANVIEW_SOCKET").toList,
     ("# Podman socket path (leave empty for auto-detection)").toList)]

/-- Keys appearing in `envTemplate`. -/
def templateKeys : List (List Char) :=
  (envTemplate.map Prod.fst).filter (fun k => k ≠ [])

/-- Lexicographic code-point order used by Go `sort.Strings` (agrees with
byte order on ASCII keys). -/
def listCharLe : List Char → List Char → Bool
  | [], _ => true
  | _ :: _, [] => false
  | c :: cs, d :: ds => if c = d then listCharLe cs ds else decide (c.toNat ≤ d.toNat)

/-- Insert into a sorted list (used to model `sort.Strings`). -/
def insertSorted (x : List Char) : List (List Char) → List (List Char)
  | [] => [x]
  | y :: ys => if listCharLe x y then x :: y :: ys else y :: insertSorted x ys

/-- Lexicographic insertion sort, the effect of Go `sort.Strings`. -/
def sortStrings (l : List (List Char)) : List (List Char) :=
  l.foldr insertSorted []

/-- `findExtraKeys`: keys of the map that are not template keys, sorted. -/
def findExtraKeys (values : List (List Char × List Char)) : List (List Char) :=
  sortStrings ((values.map Prod.fst).filter (fun k => ¬ k ∈ templateKeys))

/-- Header emitted before the extra (non-template) keys. -/
def customHeader : List (List Char) :=
  [[], ("# ===================").toList, ("# Custom Settings").toList,
   ("# ===================").toList, []]

/-- `WriteEnvFile`: the generated file content as its list of lines
(the writer terminates every line with a newline; no line produced here
contains one, so the line list determines the content). -/
def WriteEnvFile (values : List (List Char × List Char)) : List (List Char) :=
  (envTemplate.flatMap (fun e =>
    if e.1 = [] then [e.2]
    else (if e.2 = [] then [] else [e.2]) ++
      [formatEnvLine e.1 ((values.lookup e.1).getD [])])) ++
  (let extra := findExtraKeys values
   if extra = [] then []
   else customHeader ++ extra.map (fun k => formatEnvLine k ((values.lookup k).getD [])))

/-! ## `internal/api/plugins.go` — `Config` and `applyValues` -/

/-- `Config`: the application configuration (JWT expiration kept in seconds,
overflow-free integers; the mutex and dirty flag carry no data). -/
structure Config where
  addr : List Char
  jwtSecret : List Char
  jwtExpirationSecs : Int
  noAuth : Bool
  socketPath : List Char
  enabledPlugins : List (List Char)
  pluginSettings : List (List Char × List (List Char × List Char))

/-- Go `strconv.Atoi`: optional sign followed by at least one ASCII digit
(machine-word overflow not modelled; the parsed values are small). -/
def goAtoi (s : List Char) : Option Int :=
  let digits : List Char → Option Nat := fun ds =>
    if ds = [] ∨ ¬ ds.all Char.isDigit then none
    else some (ds.foldl (fun acc d => acc * 10 + (d.toNat - 48)) 0)
  match s with
  | '+' :: rest => (digits rest).map Int.ofNat
  | '-' :: rest => (digits rest).map (fun n => -(Int.ofNat n))
  | _ => (digits s).map Int.ofNat

/-- `parseBool`: accepts true/1/yes/on after trimming and lowercasing. -/
def parseBool (s : List Char) : Bool :=
  let t := toLowerList (trimSpace s)
  t = ("true").toList ∨ t = ("1").toList ∨ t = ("yes").toList ∨ t = ("on").toList

/-- `parseCommaSeparated`: split on commas, trim, drop empties. -/
def parseCommaSeparated (s : List Char) : List (List Char) :=
  if s = [] then []
  else ((splitOnChar ',' s).map trimSpace).filter (fun t => t ≠ [])

/-- The plugin-settings part of `applyValues`'s loop body: a key
`PLUGIN_<NAME>_<KEY>` splits at the first underscore after the prefix;
splits with an empty name or empty setting key are invalid. -/
def parsePluginKey (key : List Char) : Option (List Char × List Char) :=
  if (("PLUGIN_").toList).isPrefixOf key then
    let remainder := key.drop 7
    match remainder.findIdx? (· = '_') with
    | none => none
    | some underscoreIdx =>
      if underscoreIdx = 0 ∨ underscoreIdx = remainder.length - 1 then none
      else some (toLowerList (remainder.take underscoreIdx),
                 remainder.drop (underscoreIdx + 1))
  else none

/-- The plugin-settings fold of `applyValues`: each parsed key stores its
value in the named plugin's namespace. -/
def applySettingsValues
    (ps : List (List Char × List (List Char × List Char)))
    (values : List (List Char × List Char)) :
    List (List Char × List (List Char × List Char)) :=
  values.foldl
    (fun ps kv =>
      match parsePluginKey kv.1 with
      | none => ps
      | some nk => insertA ps nk.1 (insertA ((ps.lookup nk.1).getD []) nk.2 kv.2))
    ps

/-- `Config.applyValues`: apply parsed key-value pairs to the config;
the plugin-settings map is rebuilt from scratch. -/
def Config.applyValues (c : Config) (values : List (List Char × List Char)) :
    Config :=
  let c := match values.lookup (("PODMANVIEW_ADDR").toList) with
    | some v => if v ≠ [] then { c with addr := v } else c
    | none => c
  let c := match values.lookup (("PODMANVIEW_JWT_SECRET").toList) with
    | some v => if v ≠ [] then { c with jwtSecret := v } else c
    | none => c
  let c := match values.lookup (("PODMANVIEW_JWT_EXPIRATION").toList) with
    | some v =>
      if v ≠ [] then
        match goAtoi v with
        | some seconds =>
          if 0 < seconds then { c with jwtExpirationSecs := seconds } else c
        | none => c
      else c
    | none => c
  let c := match values.lookup (("PODMANVIEW_NO_AUTH").toList) with
    | some v => { c with noAuth := parseBool v }
    | none => c
  let c := match values.lookup (("PODMANVIEW_SOCKET").toList) with
    | some v => { c with socketPath := v }
    | none => c
  let c := match values.lookup (("PODMANVIEW_PLUGINS_ENABLED").toList) with
    | some v => if v ≠ [] then { c with enabledPlugins := parseCommaSeparated v } else c
    | none => c
  { c with pluginSettings := applySettingsValues [] values }

/-- `Config.GetPluginSetting`: a specific setting of one plugin's namespace;
absent namespace or key yields the empty string and `false`. -/
def Config.GetPluginSetting (c : Config) (pluginName key : List Char) :
    List Char × Bool :=
  match c.pluginSettings.lookup pluginName with
  | none => ([], false)
  | some settings =>
    match settings.lookup key with
    | none => ([], false)
    | some value => (value, true)

/-! ## `internal/plugins/plugin.go` — the Capability Shim (`BasePlugin`) -/

/-- `PluginDependencies`: the dependency bundle handed to plugins.  The
container client is opaque and unused by the modelled operations; the event
store's own state does not influence the shim, only its presence does. -/
structure PluginDependencies where
  config : Option Config
  hasEventStore : Bool

/-- `BasePlugin`: name, description, version, optional dependency bundle,
optional logger (`p.logger` is nil until dependencies are set). -/
structure BasePlugin where
  name : List Char
  description : List Char
  version : List Char
  deps : Option PluginDependencies
  hasLogger : Bool

/-- `validEventTypeRegex`: `^[a-zA-Z0-9_.]+$` — nonempty, only ASCII
alphanumerics, underscore and dot. -/
def validEventType (eventType : List Char) : Bool :=
  eventType ≠ [] &&
  eventType.all (fun c => c.isAlpha || c.isDigit || c = '_' || c = '.')

/-- An event handed to the event store by `AddEvent`. -/
structure SinkEvent where
  eventType : List Char
  username : List Char
  ip : List Char
  success : Bool
  details : List Char
deriving DecidableEq

/-- Observable outcome of one `AddEvent` call: the event forwarded to the
event store, if any, and the warning line written to the logger, if any. -/
structure AddEventResult where
  forwarded : Option SinkEvent
  warned : Option (List Char)
deriving DecidableEq

/-- `BasePlugin.AddEvent`: silently drop when the bundle or the event store
is absent; reject invalid event types with a logged warning (when a logger
exists); otherwise forward the namespaced event. -/
def BasePlugin.AddEvent (p : BasePlugin) (eventType message : List Char) :
    AddEventResult :=
  match p.deps with
  | none => { forwarded := none, warned := none }
  | some deps =>
    if ¬ deps.hasEventStore then { forwarded := none, warned := none }
    else if ¬ validEventType eventType then
      { forwarded := none
        warned :=
          if p.hasLogger then
            some (('[' :: p.name ++ ("] WARNING: Invalid event type rejected: ").toList)
                  ++ eventType)
          else none }
    else
      { forwarded := some
          { eventType := ("plugin.").toList ++ p.name ++ '.' :: eventType
            username := ("plugin").toList
            ip := []
            success := true
            details := message }
        warned := none }

/-- `BasePlugin.LogInfo`: the format string written to the logger (before
argument substitution), `none` when no logger has been set. -/
def BasePlugin.LogInfo (p : BasePlugin) (format : List Char) :
    Option (List Char) :=
  if p.hasLogger then some ('[' :: p.name ++ ("] ").toList ++ format) else none

/-- `BasePlugin.LogError`: like `LogInfo` with an `ERROR: ` marker. -/
def BasePlugin.LogError (p : BasePlugin) (format : List Char) :
    Option (List Char) :=
  if p.hasLogger then some ('[' :: p.name ++ ("] ERROR: ").toList ++ format)
  else none

/-- `BasePlugin.GetPluginSetting`: `("", false)` without a bundle or a
configuration accessor, otherwise the namespaced lookup. -/
def BasePlugin.GetPluginSetting (p : BasePlugin) (key : List Char) :
    List Char × Bool :=
  match p.deps with
  | none => ([], false)
  | some deps =>
    match deps.config with
    | none => ([], false)
    | some c => c.GetPluginSetting p.name key

/-- `BasePlugin.GetPluginSettingOrDefault`: the stored value when present,
otherwise the given default. -/
def BasePlugin.GetPluginSettingOrDefault (p : BasePlugin)
    (key defaultValue : List Char) : List Char :=
  let vo := p.GetPluginSetting key
  if vo.2 then vo.1 else defaultValue

/-! ## `internal/plugins/led/led.go` — the LED plugin -/

/-- Modelled from the spec: the durable settings/enablement store
(`internal/storage`, not part of the available sources) as consumed by the
LED plugin; `isPluginEnabled` reports the persisted enabled flag or an
error. -/
structure LEDStorage where
  isPluginEnabled : String → Except String Bool

/-- The dependency bundle as used by the LED plugin (it reads only the
durable store; `Storage` is a nilable reference). -/
structure LEDDependencies where
  storage : Option LEDStorage

/-- `LEDStatus`: enabled/disabled. -/
inductive LEDStatus where
  | enabled
  | disabled
deriving DecidableEq

/-- `LEDInfo`: one discovered LED. -/
structure LEDInfo where
  name : String
  path : String
  brightness : Int
deriving DecidableEq

/-- `LEDState`: the runtime state of all LEDs (`lastUpdate` as a number). -/
structure LEDState where
  status : LEDStatus
  totalLEDs : Int
  enabledCount : Int
  disabledCount : Int
  lastUpdate : Int
deriving DecidableEq

/-- `LEDPlugin`: embedded base-plugin name plus optional dependencies and
the runtime fields guarded by the mutex. -/
structure LEDPlugin where
  name : String
  deps : Option LEDDependencies
  state : LEDState
  autoDisableOnStartup : Bool
  leds : List LEDInfo

/-- `LEDPlugin.IsEnabled`: false without dependencies or store, false on a
store error, otherwise exactly the persisted flag. -/
def LEDPlugin.IsEnabled (p : LEDPlugin) : Bool :=
  match p.deps with
  | none => false
  | some deps =>
    match deps.storage with
    | none => false
    | some storage =>
      match storage.isPluginEnabled p.name with
      | .error _ => false
      | .ok enabled => enabled

/-! ## `internal/api/plugins.go` — `PluginHandler.Toggle` -/

/-- `storage.PluginConfig` as used by the Toggle handler (modelled from the
spec for the fields; the storage package is not part of the available
sources): the persisted per-plugin record. -/
structure PluginConfig where
  enabled : Bool
  pcName : String
deriving DecidableEq

/-- Failure mode of `GetPluginConfig`: the sentinel `ErrPluginNotFound` or
any other error. -/
inductive GetConfigError where
  | notFound
  | other (e : String)
deriving DecidableEq

/-- Modelled from the spec: the durable store behind the Toggle handler
(`internal/storage`, not part of the available sources).  `configs` is the
persisted state; `getErr`/`setErr` inject adapter failures. -/
structure Store where
  configs : List (String × PluginConfig)
  getErr : Option String
  setErr : Option String
deriving DecidableEq

/-- `Storage.GetPluginConfig`: injected failure, else lookup with the
not-found sentinel. -/
def Store.GetPluginConfig (s : Store) (name : String) :
    Except GetConfigError PluginConfig :=
  match s.getErr with
  | some e => .error (.other e)
  | none =>
    match s.configs.lookup name with
    | some cfg => .ok cfg
    | none => .error .notFound

/-- `Storage.SetPluginConfig`: injected failure, else persist the record. -/
def Store.SetPluginConfig (s : Store) (name : String) (cfg : PluginConfig) :
    Except String Store :=
  match s.setErr with
  | some e => .error e
  | none => .ok { s with configs := insertA s.configs name cfg }

/-- The dynamic plugin registry interface consumed by the handler
(`EnablePlugin`/`DisablePlugin`); `R` is the registry's state. -/
structure RegistryOps (R : Type) where
  enablePlugin : R → String → Except String R
  disablePlugin : R → String → Except String R

/-- The server fields read by the Toggle handler: nilable storage and
nilable dynamic registry. -/
structure ServerState (R : Type) where
  storage : Option Store
  pluginRegistry : Option R

/-- Externally visible calls the Toggle handler makes, in order. -/
inductive Effect where
  | getConfig (name : String)
  | setConfig (name : String) (cfg : PluginConfig) (ok : Bool)
  | enablePlugin (name : String)
  | disablePlugin (name : String)
deriving DecidableEq

/-- The handler's HTTP outcome: an `http.Error` or the JSON success body. -/
inductive ToggleResult where
  | httpError (status : Nat) (msg : String)
  | success (plugin : String) (enabled restartRequired : Bool)
deriving DecidableEq

/-- Continuation of `Toggle` after the config record has been obtained or
freshly created: save to storage, then try the dynamic registry. -/
def toggleAfterGet {R : Type} (ops : RegistryOps R) (st : ServerState R)
    (store : Store) (pluginName : String) (reqEnabled : Bool)
    (cfg : PluginConfig) : ToggleResult × ServerState R × List Effect :=
  match store.SetPluginConfig pluginName cfg with
  | .error e =>
    (.httpError 500 ("Failed to save plugin config: " ++ e), st,
     [.getConfig pluginName, .setConfig pluginName cfg false])
  | .ok store' =>
    let tr := [Effect.getConfig pluginName, Effect.setConfig pluginName cfg true]
    match st.pluginRegistry with
    | none =>
      (.success pluginName reqEnabled true,
       { storage := some store', pluginRegistry := none }, tr)
    | some reg =>
      let call : Except String R :=
        if reqEnabled then ops.enablePlugin reg pluginName
        else ops.disablePlugin reg pluginName
      let eff : Effect :=
        if reqEnabled then .enablePlugin pluginName else .disablePlugin pluginName
      match call with
      | .error e =>
        (.httpError 500 ("Failed to toggle plugin: " ++ e),
         { storage := some store', pluginRegistry := some reg }, tr ++ [eff])
      | .ok reg' =>
        (.success pluginName reqEnabled false,
         { storage := some store', pluginRegistry := some reg' }, tr ++ [eff])

/-- `PluginHandler.Toggle` (body already decoded to `reqEnabled`): check
storage, fetch or create the config record, persist it, then attempt the
dynamic enable/disable; report `restart_required` when no registry is
attached.  Returns the HTTP outcome, the server state afterwards, and the
ordered list of external calls. -/
def PluginHandler.Toggle {R : Type} (ops : RegistryOps R) (st : ServerState R)
    (pluginName : String) (reqEnabled : Bool) :
    ToggleResult × ServerState R × List Effect :=
  match st.storage with
  | none => (.httpError 500 "Storage not available", st, [])
  | some store =>
    match store.GetPluginConfig pluginName with
    | .error .notFound =>
      toggleAfterGet ops st store pluginName reqEnabled
        { enabled := reqEnabled, pcName := pluginName }
    | .error (.other e) =>
      (.httpError 500 ("Failed to get plugin config: " ++ e), st,
       [.getConfig pluginName])
    | .ok pluginConfig =>
      toggleAfterGet ops st store pluginName reqEnabled
        { pluginConfig with enabled := reqEnabled }

/-- True for the effects that mutate the dynamic registry. -/
def Effect.isRegCall : Effect → Bool
  | .enablePlugin _ => true
  | .disablePlugin _ => true
  | _ => false

/-! ## The Registry (spec §4.2) -/

/-- Modelled from the spec: per-unit lifecycle state
`Registered → Initialized → Running → Stopped` with `Failed` reachable from
any activation attempt (the Registry implementation is not part of the
available sources). -/
inductive UnitState where
  | registered
  | initialized
  | running
  | stopped
  | failed (err : String)
deriving DecidableEq

/-- Outcome of one lifecycle hook of a unit: normal success, a returned
error, or a runtime fault raised inside the hook. -/
inductive StepResult where
  | ok
  | err (e : String)
  | fault (msg : String)
deriving DecidableEq

/-- Modelled from the spec: a unit's behaviour during one activation
attempt — what `Init`, `Start` and `Stop` do and which routes it offers. -/
structure UnitBehavior where
  initResult : StepResult
  startResult : StepResult
  stopResult : StepResult
  routes : List (String × String)
deriving DecidableEq

/-- Modelled from the spec: one registry entry
`{unit instance, current state, last error}`. -/
structure RegEntry where
  behavior : UnitBehavior
  state : UnitState
  lastError : Option String
deriving DecidableEq

/-- Modelled from the spec: the Registry — all registered units keyed by
name, plus the published route table keyed by (method, path). -/
structure Registry where
  entries : List (String × RegEntry)
  routeTable : List ((String × String) × String)
deriving DecidableEq

/-- How one Registry operation ends: a normal return carrying success or an
error, or a fault escaping the Registry boundary and crashing the host.
The recovery invariant says `crashed` never happens. -/
inductive ActOutcome where
  | done (res : Except String Unit)
  | crashed (msg : String)

/-- Replace one entry of the registry table. -/
def Registry.setEntry (reg : Registry) (name : String) (e : RegEntry) :
    Registry :=
  { reg with entries := insertA reg.entries name e }

/-- Modelled from the spec: `Activate(name)` — run `Init`, then `Start`,
then publish the routes; any error, fault or route collision parks the
unit `Failed` with the captured error (faults are recovered at this
boundary, so `crashed` is never produced), publishes nothing, and triggers
a best-effort `Stop` whose outcome is only logged. -/
def Registry.Activate (reg : Registry) (name : String) :
    Registry × ActOutcome :=
  match reg.entries.lookup name with
  | none => (reg, .done (.error ("plugin not found: " ++ name)))
  | some entry =>
    match entry.behavior.initResult with
    | .fault m =>
      (reg.setEntry name { entry with state := .failed m, lastError := some m },
       .done (.error m))
    | .err e =>
      (reg.setEntry name { entry with state := .failed e, lastError := some e },
       .done (.error e))
    | .ok =>
      match entry.behavior.startResult with
      | .fault m =>
        (reg.setEntry name { entry with state := .failed m, lastError := some m },
         .done (.error m))
      | .err e =>
        (reg.setEntry name { entry with state := .failed e, lastError := some e },
         .done (.error e))
      | .ok =>
        if entry.behavior.routes.any
            (fun r => (reg.routeTable.lookup r).isSome) then
          (reg.setEntry name
            { entry with state := .failed ("route collision"),
                         lastError := some ("route collision") },
           .done (.error ("route collision")))
        else
          ({ entries := insertA reg.entries name
               { entry with state := .running, lastError := none }
             routeTable :=
               reg.routeTable ++ entry.behavior.routes.map (fun r => (r, name)) },
           .done (.ok ()))

/-- Modelled from the spec: `Deactivate(name)` — unpublish the unit's
routes first, attempt `Stop` (errors and faults are logged, never block the
transition), then transition to `Stopped`. -/
def Registry.Deactivate (reg : Registry) (name : String) :
    Registry × ActOutcome :=
  match reg.entries.lookup name with
  | none => (reg, .done (.error ("plugin not found: " ++ name)))
  | some entry =>
    ({ entries := insertA reg.entries name { entry with state := .stopped }
       routeTable := reg.routeTable.filter (fun kv => kv.2 ≠ name) },
     .done (.ok ()))

/-- `EnablePlugin` as consumed by the Toggle handler. -/
def Registry.EnablePlugin (reg : Registry) (name : String) :
    Except String Registry :=
  match reg.Activate name with
  | (reg', .done (.ok _)) => .ok reg'
  | (_, .done (.error e)) => .error e
  | (_, .crashed m) => .error m

/-- `DisablePlugin` as consumed by the Toggle handler. -/
def Registry.DisablePlugin (reg : Registry) (name : String) :
    Except String Registry :=
  match reg.Deactivate name with
  | (reg', .done (.ok _)) => .ok reg'
  | (_, .done (.error e)) => .error e
  | (_, .crashed m) => .error m

/-- The registry interface instantiated with the spec-modelled Registry. -/
def specRegistryOps : RegistryOps Registry :=
  { enablePlugin := Registry.EnablePlugin
    disablePlugin := Registry.DisablePlugin }

/-- An answering call of the Registry: the current state of a unit. -/
def Registry.GetState (reg : Registry) (name : String) : Option UnitState :=
  (reg.entries.lookup name).map RegEntry.state

/-- Condition on a value under which the writer's output parses back
unchanged: either the writer quotes it, or it has no Go white space at its
ends (the writer leaves white space outside space/tab/newline/carriage
return unprotected and the parser trims it). -/
def roundtripValue (v : List Char) : Bool :=
  needsQuoting v ||
  ((match v.head? with | some c => !goIsSpace c | none => true) &&
   (match v.getLast? with | some c => !goIsSpace c | none => true))


/-! # Helper lemmas -/

theorem lookup_insertA_self {α β : Type} [DecidableEq α] [BEq α] [LawfulBEq α]
    (m : List (α × β)) (k : α) (v : β) :
    (insertA m k v).lookup k = some v := by
  induction m with
  | nil => simp [insertA, List.lookup]
  | cons hd tl ih =>
    by_cases h : hd.1 = k
    · simp [insertA, h, List.lookup]
    · have hb : (k == hd.1) = false := by
        simp only [beq_eq_false_iff_ne, ne_eq]
        exact fun hh => h hh.symm
      simp [insertA, h, List.lookup, hb, ih]

theorem lookup_insertA_ne {α β : Type} [DecidableEq α] [BEq α] [LawfulBEq α]
    (m : List (α × β)) (k k' : α) (v : β) (h : k' ≠ k) :
    (insertA m k v).lookup k' = m.lookup k' := by
  have hb : (k' == k) = false := by
    simp only [beq_eq_false_iff_ne, ne_eq]
    exact h
  induction m with
  | nil => simp [insertA, List.lookup, hb]
  | cons hd tl ih =>
    by_cases hk : hd.1 = k
    · subst hk
      simp [insertA, List.lookup, hb]
    · by_cases hk' : k' = hd.1
      · subst hk'
        simp [insertA, hk, List.lookup]
      · have hb' : (k' == hd.1) = false := by
          simp only [beq_eq_false_iff_ne, ne_eq]
          exact hk'
        simp [insertA, hk, List.lookup, hb', ih]

/-! # C1 -/

/-- C1: a runtime fault inside a unit's `Init` or `Start` is recovered at
the Registry boundary — the activation never crashes the host, the unit is
parked `Failed` with the captured error recorded, and the Registry answers
state queries for every other unit name exactly as before. -/
theorem registry_fault_recovered_at_boundary :
    (∀ (reg : Registry) (name m : String),
        (reg.Activate name).2 ≠ ActOutcome.crashed m) ∧
    (∀ (reg : Registry) (name : String) (entry : RegEntry) (m : String),
        reg.entries.lookup name = some entry →
        (entry.behavior.initResult = .fault m ∨
          (entry.behavior.initResult = .ok ∧
           entry.behavior.startResult = .fault m)) →
        (reg.Activate name).1.entries.lookup name =
            some { entry with state := .failed m, lastError := some m } ∧
        (reg.Activate name).2 = .done (.error m) ∧
        ∀ n', n' ≠ name →
          (reg.Activate name).1.GetState n' = reg.GetState n') := by
  constructor
  · intro reg name m
    unfold Registry.Activate
    cases hl : reg.entries.lookup name with
    | none => simp
    | some entry =>
      cases hi : entry.behavior.initResult with
      | fault m' => simp [hi]
      | err e => simp [hi]
      | ok =>
        cases hs : entry.behavior.startResult with
        | fault m' => simp [hi, hs]
        | err e => simp [hi, hs]
        | ok =>
          by_cases hc : entry.behavior.routes.any
              (fun r => (reg.routeTable.lookup r).isSome)
          · simp [hi, hs, hc]
          · simp [hi, hs, hc]
  · intro reg name entry m hl hfault
    have hact : reg.Activate name =
        (reg.setEntry name { entry with state := .failed m, lastError := some m },
         .done (.error m)) := by
      unfold Registry.Activate
      rcases hfault with hi | ⟨hi, hs⟩
      · simp [hl, hi]
      · simp [hl, hi, hs]
    refine ⟨?_, ?_, ?_⟩
    · rw [hact]
      exact lookup_insertA_self reg.entries name _
    · rw [hact]
    · intro n' hne
      rw [hact]
      unfold Registry.GetState
      simp [Registry.setEntry, lookup_insertA_ne reg.entries name n' _ hne]

/-- A concrete two-unit registry whose unit `bad` faults in `Start`. -/
def witnessRegistry : Registry :=
  { entries :=
      [("bad",
        { behavior :=
            { initResult := .ok, startResult := .fault "boom",
              stopResult := .ok, routes := [] },
          state := .registered, lastError := none }),
       ("good",
        { behavior :=
            { initResult := .ok, startResult := .ok, stopResult := .ok,
              routes := [] },
          state := .running, lastError := none })],
    routeTable := [] }

/-- Witness for C1: activating the faulting unit of the concrete registry
parks it `Failed "boom"` and leaves the other unit's state query intact. -/
theorem registry_fault_recovered_at_boundary_witness :
    witnessRegistry.entries.lookup "bad" =
      some { behavior :=
               { initResult := .ok, startResult := .fault "boom",
                 stopResult := .ok, routes := [] },
             state := .registered, lastError := none } ∧
    (witnessRegistry.Activate "bad").1.entries.lookup "bad" =
      some { behavior :=
               { initResult := .ok, startResult := .fault "boom",
                 stopResult := .ok, routes := [] },
             state := .failed "boom", lastError := some "boom" } ∧
    (witnessRegistry.Activate "bad").2 = .done (.error "boom") ∧
    ∀ n', n' ≠ "bad" →
      (witnessRegistry.Activate "bad").1.GetState n' =
        witnessRegistry.GetState n' := by
  have h1 : witnessRegistry.entries.lookup "bad" =
      some { behavior :=
               { initResult := .ok, startResult := .fault "boom",
                 stopResult := .ok, routes := [] },
             state := .registered, lastError := none } := by decide
  exact ⟨h1,
    registry_fault_recovered_at_boundary.2 witnessRegistry "bad" _ "boom" h1
      (Or.inr ⟨rfl, rfl⟩)⟩

/-! # C2 -/

/-- C2: `Toggle` persists the desired flag before any activation or
deactivation: every registry call in the effect trace is preceded by a
successful persist of the requested flag; if persisting fails the handler
returns an error, leaves the server state unchanged and never calls the
registry; and once persisting succeeded the persisted flag already holds
the requested value, whatever the activation outcome. -/
theorem toggle_persists_flag_before_activation
    (R : Type) (ops : RegistryOps R) (st : ServerState R)
    (name : String) (req : Bool) :
    (∀ eff ∈ (PluginHandler.Toggle ops st name req).2.2, eff.isRegCall →
       ∃ cfg, (PluginHandler.Toggle ops st name req).2.2 =
         [.getConfig name, .setConfig name cfg true, eff] ∧ cfg.enabled = req) ∧
    (∀ s e, st.storage = some s → s.getErr = none → s.setErr = some e →
       (PluginHandler.Toggle ops st name req).1 =
         .httpError 500 ("Failed to save plugin config: " ++ e) ∧
       (PluginHandler.Toggle ops st name req).2.1 = st ∧
       ∀ eff ∈ (PluginHandler.Toggle ops st name req).2.2, ¬ eff.isRegCall = true) ∧
    (∀ s, st.storage = some s → s.getErr = none → s.setErr = none →
       ∃ store', (PluginHandler.Toggle ops st name req).2.1.storage = some store' ∧
         ∃ cfg, store'.configs.lookup name = some cfg ∧ cfg.enabled = req) := by
  cases hst : st.storage with
  | none =>
    refine ⟨?_, ?_, ?_⟩
    · intro eff hmem
      simp [PluginHandler.Toggle, hst] at hmem
    · intro s e hs
      exact absurd hs (by simp)
    · intro s hs
      exact absurd hs (by simp)
  | some store =>
    cases hg : store.getErr with
    | some e0 =>
      have htog : PluginHandler.Toggle ops st name req =
          (.httpError 500 ("Failed to get plugin config: " ++ e0), st,
           [.getConfig name]) := by
        simp [PluginHandler.Toggle, hst, Store.GetPluginConfig, hg]
      refine ⟨?_, ?_, ?_⟩
      · intro eff hmem hcall
        rw [htog] at hmem
        simp at hmem
        subst hmem
        simp [Effect.isRegCall] at hcall
      · intro s e hs hge hse
        obtain rfl : store = s := by injection hs
        rw [hg] at hge
        exact absurd hge (by simp)
      · intro s hs hge hse
        obtain rfl : store = s := by injection hs
        rw [hg] at hge
        exact absurd hge (by simp)
    | none =>
      have main : ∀ cfg : PluginConfig, cfg.enabled = req →
          PluginHandler.Toggle ops st name req =
            toggleAfterGet ops st store name req cfg →
          (∀ eff ∈ (PluginHandler.Toggle ops st name req).2.2, eff.isRegCall →
             ∃ cfg', (PluginHandler.Toggle ops st name req).2.2 =
               [.getConfig name, .setConfig name cfg' true, eff] ∧
               cfg'.enabled = req) ∧
          (∀ s e, (some store : Option Store) = some s → s.getErr = none →
             s.setErr = some e →
             (PluginHandler.Toggle ops st name req).1 =
               .httpError 500 ("Failed to save plugin config: " ++ e) ∧
             (PluginHandler.Toggle ops st name req).2.1 = st ∧
             ∀ eff ∈ (PluginHandler.Toggle ops st name req).2.2,
               ¬ eff.isRegCall = true) ∧
          (∀ s, (some store : Option Store) = some s → s.getErr = none →
             s.setErr = none →
             ∃ store',
               (PluginHandler.Toggle ops st name req).2.1.storage = some store' ∧
               ∃ cfg', store'.configs.lookup name = some cfg' ∧
                 cfg'.enabled = req) := by
        intro cfg hcfg htog
        cases hset : store.setErr with
        | some e1 =>
          have hafter : toggleAfterGet ops st store name req cfg =
              (.httpError 500 ("Failed to save plugin config: " ++ e1), st,
               [.getConfig name, .setConfig name cfg false]) := by
            simp [toggleAfterGet, Store.SetPluginConfig, hset]
          rw [hafter] at htog
          refine ⟨?_, ?_, ?_⟩
          · intro eff hmem hcall
            rw [htog] at hmem
            simp at hmem
            rcases hmem with h | h <;> subst h <;>
              simp [Effect.isRegCall] at hcall
          · intro s e hs hge hse
            obtain rfl : store = s := by injection hs
            rw [hset] at hse
            obtain rfl : e1 = e := by injection hse
            rw [htog]
            refine ⟨rfl, rfl, ?_⟩
            intro eff hmem
            simp at hmem
            rcases hmem with h | h <;> subst h <;> simp [Effect.isRegCall]
          · intro s hs hge hse
            obtain rfl : store = s := by injection hs
            rw [hset] at hse
            exact absurd hse (by simp)
        | none =>
          have hstore' : store.SetPluginConfig name cfg =
              .ok { store with configs := insertA store.configs name cfg } := by
            simp [Store.SetPluginConfig, hset]
          have hlook' :
              (insertA store.configs name cfg).lookup name = some cfg :=
            lookup_insertA_self store.configs name cfg
          cases hreg : st.pluginRegistry with
          | none =>
            have hafter : toggleAfterGet ops st store name req cfg =
                (.success name req true,
                 { storage := some { store with configs := insertA store.configs name cfg },
                   pluginRegistry := none },
                 [.getConfig name, .setConfig name cfg true]) := by
              simp [toggleAfterGet, hstore', hreg]
            rw [hafter] at htog
            refine ⟨?_, ?_, ?_⟩
            · intro eff hmem hcall
              rw [htog] at hmem
              simp at hmem
              rcases hmem with h | h <;> subst h <;>
                simp [Effect.isRegCall] at hcall
            · intro s e hs hge hse
              obtain rfl : store = s := by injection hs
              rw [hset] at hse
              exact absurd hse (by simp)
            · intro s hs hge hse
              rw [htog]
              exact ⟨_, rfl, cfg, hlook', hcfg⟩
          | some reg =>
            cases hcall : (if req then ops.enablePlugin reg name
                           else ops.disablePlugin reg name) with
            | error e2 =>
              have hafter : toggleAfterGet ops st store name req cfg =
                  (.httpError 500 ("Failed to toggle plugin: " ++ e2),
                   { storage := some { store with configs := insertA store.configs name cfg },
                     pluginRegistry := some reg },
                   [.getConfig name, .setConfig name cfg true,
                    if req then .enablePlugin name else .disablePlugin name]) := by
                simp [toggleAfterGet, hstore', hreg, hcall]
              rw [hafter] at htog
              refine ⟨?_, ?_, ?_⟩
              · intro eff hmem hcall'
                rw [htog] at hmem
                simp at hmem
                rcases hmem with h | h | h
                · subst h; simp [Effect.isRegCall] at hcall'
                · subst h; simp [Effect.isRegCall] at hcall'
                · subst h
                  rw [htog]
                  exact ⟨cfg, rfl, hcfg⟩
              · intro s e hs hge hse
                obtain rfl : store = s := by injection hs
                rw [hset] at hse
                exact absurd hse (by simp)
              · intro s hs hge hse
                rw [htog]
                exact ⟨_, rfl, cfg, hlook', hcfg⟩
            | ok reg' =>
              have hafter : toggleAfterGet ops st store name req cfg =
                  (.success name req false,
                   { storage := some { store with configs := insertA store.configs name cfg },
                     pluginRegistry := some reg' },
                   [.getConfig name, .setConfig name cfg true,
                    if req then .enablePlugin name else .disablePlugin name]) := by
                simp [toggleAfterGet, hstore', hreg, hcall]
              rw [hafter] at htog
              refine ⟨?_, ?_, ?_⟩
              · intro eff hmem hcall'
                rw [htog] at hmem
                simp at hmem
                rcases hmem with h | h | h
                · subst h; simp [Effect.isRegCall] at hcall'
                · subst h; simp [Effect.isRegCall] at hcall'
                · subst h
                  rw [htog]
                  exact ⟨cfg, rfl, hcfg⟩
              · intro s e hs hge hse
                obtain rfl : store = s := by injection hs
                rw [hset] at hse
                exact absurd hse (by simp)
              · intro s hs hge hse
                rw [htog]
                exact ⟨_, rfl, cfg, hlook', hcfg⟩
      cases hlook : store.configs.lookup name with
      | none =>
        exact main { enabled := req, pcName := name } rfl
          (by simp [PluginHandler.Toggle, hst, Store.GetPluginConfig, hg, hlook])
      | some cfg0 =>
        exact main { cfg0 with enabled := req } rfl
          (by simp [PluginHandler.Toggle, hst, Store.GetPluginConfig, hg, hlook])

/-- A concrete store whose persist step fails. -/
def witnessStoreSetFails : Store :=
  { configs := [], getErr := none, setErr := some "disk full" }

/-- A concrete healthy store holding one record. -/
def witnessStoreOk : Store :=
  { configs := [("led", { enabled := false, pcName := "led" })],
    getErr := none, setErr := none }

/-- A registry interface over `Unit` whose calls always fail. -/
def failingOps : RegistryOps Unit :=
  { enablePlugin := fun _ _ => .error "down",
    disablePlugin := fun _ _ => .error "down" }

/-- Witness for C2: with a failing persist step the handler reports the
save error; with a healthy store the persisted flag already holds the
requested value even though the registry call fails. -/
theorem toggle_persists_flag_before_activation_witness :
    (witnessStoreSetFails.getErr = none ∧
     witnessStoreSetFails.setErr = some "disk full" ∧
     (PluginHandler.Toggle failingOps
        { storage := some witnessStoreSetFails, pluginRegistry := some () }
        "led" true).1 =
       .httpError 500 ("Failed to save plugin config: " ++ "disk full")) ∧
    (witnessStoreOk.getErr = none ∧ witnessStoreOk.setErr = none ∧
     ∃ store',
       (PluginHandler.Toggle failingOps
          { storage := some witnessStoreOk, pluginRegistry := some () }
          "led" true).2.1.storage = some store' ∧
       ∃ cfg, store'.configs.lookup "led" = some cfg ∧ cfg.enabled = true) := by
  constructor
  · refine ⟨rfl, rfl, ?_⟩
    exact ((toggle_persists_flag_before_activation Unit failingOps
      { storage := some witnessStoreSetFails, pluginRegistry := some () }
      "led" true).2.1 witnessStoreSetFails "disk full" rfl rfl rfl).1
  · refine ⟨rfl, rfl, ?_⟩
    exact (toggle_persists_flag_before_activation Unit failingOps
      { storage := some witnessStoreOk, pluginRegistry := some () }
      "led" true).2.2 witnessStoreOk rfl rfl rfl

/-! # C3 -/

/-- A registry holding one unit parked `Failed` with no active instance. -/
def failedUnitRegistry : Registry :=
  { entries :=
      [("u",
        { behavior :=
            { initResult := .ok, startResult := .ok, stopResult := .ok,
              routes := [] },
          state := .failed "boom", lastError := some "boom" })],
    routeTable := [] }

/-- Counterexample for C3: a registry IS attached and the still-`Failed`
unit `u` (no active instance) is asked to deactivate, yet the response does
not report `restart_required = true` — the handler sets that flag only in
the no-registry branch, so the claimed biconditional fails. -/
theorem toggle_restart_required_counterexample :
    (failedUnitRegistry.GetState "u") = some (.failed "boom") ∧
    (PluginHandler.Toggle specRegistryOps
       { storage := some witnessStoreOk, pluginRegistry := some failedUnitRegistry }
       "u" false).1 =
      .success "u" false false := by
  constructor
  · rfl
  · rfl

/-- C3 (amended): a Toggle response reports `restart_required = true`
exactly when no dynamic registry is attached; in the no-registry case the
handler makes no registry call, leaves no registry attached, still persists
the flag and responds with success; and with a registry present a
successful operation reports `restart_required = false`. -/
theorem toggle_restart_required_iff_no_registry
    (R : Type) (ops : RegistryOps R) (st : ServerState R)
    (name : String) (req : Bool) :
    (∀ n e r, (PluginHandler.Toggle ops st name req).1 =
        ToggleResult.success n e r →
       (r = true ↔ st.pluginRegistry = none)) ∧
    (st.pluginRegistry = none →
       (∀ eff ∈ (PluginHandler.Toggle ops st name req).2.2,
          ¬ eff.isRegCall = true) ∧
       (PluginHandler.Toggle ops st name req).2.1.pluginRegistry = none) ∧
    (∀ s, st.pluginRegistry = none → st.storage = some s →
       s.getErr = none → s.setErr = none →
       (PluginHandler.Toggle ops st name req).1 =
         ToggleResult.success name req true ∧
       ∃ store',
         (PluginHandler.Toggle ops st name req).2.1.storage = some store' ∧
         ∃ cfg, store'.configs.lookup name = some cfg ∧ cfg.enabled = req) := by
  cases hst : st.storage with
  | none =>
    have htog : PluginHandler.Toggle ops st name req =
        (.httpError 500 "Storage not available", st, []) := by
      simp [PluginHandler.Toggle, hst]
    refine ⟨?_, ?_, ?_⟩
    · intro n e r hsucc
      rw [htog] at hsucc
      exact absurd hsucc (by simp)
    · intro hregnone
      rw [htog]
      exact ⟨by simp, hregnone⟩
    · intro s _ hs
      exact absurd hs (by simp)
  | some store =>
    cases hg : store.getErr with
    | some e0 =>
      have htog : PluginHandler.Toggle ops st name req =
          (.httpError 500 ("Failed to get plugin config: " ++ e0), st,
           [.getConfig name]) := by
        simp [PluginHandler.Toggle, hst, Store.GetPluginConfig, hg]
      refine ⟨?_, ?_, ?_⟩
      · intro n e r hsucc
        rw [htog] at hsucc
        exact absurd hsucc (by simp)
      · intro hregnone
        rw [htog]
        refine ⟨?_, hregnone⟩
        intro eff hmem
        simp at hmem
        subst hmem
        simp [Effect.isRegCall]
      · intro s hregnone hs hge
        obtain rfl : store = s := by injection hs
        rw [hg] at hge
        exact absurd hge (by simp)
    | none =>
      have main : ∀ cfg : PluginConfig, cfg.enabled = req →
          PluginHandler.Toggle ops st name req =
            toggleAfterGet ops st store name req cfg →
          (∀ n e r, (PluginHandler.Toggle ops st name req).1 =
              ToggleResult.success n e r →
             (r = true ↔ st.pluginRegistry = none)) ∧
          (st.pluginRegistry = none →
             (∀ eff ∈ (PluginHandler.Toggle ops st name req).2.2,
                ¬ eff.isRegCall = true) ∧
             (PluginHandler.Toggle ops st name req).2.1.pluginRegistry = none) ∧
          (∀ s, st.pluginRegistry = none →
             (some store : Option Store) = some s →
             s.getErr = none → s.setErr = none →
             (PluginHandler.Toggle ops st name req).1 =
               ToggleResult.success name req true ∧
             ∃ store',
               (PluginHandler.Toggle ops st name req).2.1.storage = some store' ∧
               ∃ cfg', store'.configs.lookup name = some cfg' ∧
                 cfg'.enabled = req) := by
        intro cfg hcfg htog
        cases hset : store.setErr with
        | some e1 =>
          have hafter : toggleAfterGet ops st store name req cfg =
              (.httpError 500 ("Failed to save plugin config: " ++ e1), st,
               [.getConfig name, .setConfig name cfg false]) := by
            simp [toggleAfterGet, Store.SetPluginConfig, hset]
          rw [hafter] at htog
          refine ⟨?_, ?_, ?_⟩
          · intro n e r hsucc
            rw [htog] at hsucc
            exact absurd hsucc (by simp)
          · intro hregnone
            rw [htog]
            refine ⟨?_, hregnone⟩
            intro eff hmem
            simp at hmem
            rcases hmem with h | h <;> subst h <;> simp [Effect.isRegCall]
          · intro s hregnone hs hge hse
            obtain rfl : store = s := by injection hs
            rw [hset] at hse
            exact absurd hse (by simp)
        | none =>
          have hstore' : store.SetPluginConfig name cfg =
              .ok { store with configs := insertA store.configs name cfg } := by
            simp [Store.SetPluginConfig, hset]
          have hlook' :
              (insertA store.configs name cfg).lookup name = some cfg :=
            lookup_insertA_self store.configs name cfg
          cases hreg : st.pluginRegistry with
          | none =>
            have hafter : toggleAfterGet ops st store name req cfg =
                (.success name req true,
                 { storage := some { store with configs := insertA store.configs name cfg },
                   pluginRegistry := none },
                 [.getConfig name, .setConfig name cfg true]) := by
              simp [toggleAfterGet, hstore', hreg]
            rw [hafter] at htog
            refine ⟨?_, ?_, ?_⟩
            · intro n e r hsucc
              rw [htog] at hsucc
              simp only [ToggleResult.success.injEq] at hsucc
              obtain ⟨h1, h2, h3⟩ := hsucc
              subst h3
              simp [hreg]
            · intro hregnone
              rw [htog]
              refine ⟨?_, rfl⟩
              intro eff hmem
              simp at hmem
              rcases hmem with h | h <;> subst h <;> simp [Effect.isRegCall]
            · intro s hregnone hs hge hse
              rw [htog]
              exact ⟨rfl, _, rfl, cfg, hlook', hcfg⟩
          | some reg =>
            cases hcall : (if req then ops.enablePlugin reg name
                           else ops.disablePlugin reg name) with
            | error e2 =>
              have hafter : toggleAfterGet ops st store name req cfg =
                  (.httpError 500 ("Failed to toggle plugin: " ++ e2),
                   { storage := some { store with configs := insertA store.configs name cfg },
                     pluginRegistry := some reg },
                   [.getConfig name, .setConfig name cfg true,
                    if req then .enablePlugin name else .disablePlugin name]) := by
                simp [toggleAfterGet, hstore', hreg, hcall]
              rw [hafter] at htog
              refine ⟨?_, ?_, ?_⟩
              · intro n e r hsucc
                rw [htog] at hsucc
                exact absurd hsucc (by simp)
              · intro hregnone
                simp at hregnone
              · intro s hregnone hs
                simp at hregnone
            | ok reg' =>
              have hafter : toggleAfterGet ops st store name req cfg =
                  (.success name req false,
                   { storage := some { store with configs := insertA store.configs name cfg },
                     pluginRegistry := some reg' },
                   [.getConfig name, .setConfig name cfg true,
                    if req then .enablePlugin name else .disablePlugin name]) := by
                simp [toggleAfterGet, hstore', hreg, hcall]
              rw [hafter] at htog
              refine ⟨?_, ?_, ?_⟩
              · intro n e r hsucc
                rw [htog] at hsucc
                simp only [ToggleResult.success.injEq] at hsucc
                obtain ⟨h1, h2, h3⟩ := hsucc
                subst h3
                simp [hreg]
              · intro hregnone
                simp at hregnone
              · intro s hregnone hs
                simp at hregnone
      cases hlook : store.configs.lookup name with
      | none =>
        exact main { enabled := req, pcName := name } rfl
          (by simp [PluginHandler.Toggle, hst, Store.GetPluginConfig, hg, hlook])
      | some cfg0 =>
        exact main { cfg0 with enabled := req } rfl
          (by simp [PluginHandler.Toggle, hst, Store.GetPluginConfig, hg, hlook])

/-- Witness for C3: with no registry attached and a healthy store the
handler answers success with `restart_required = true`, makes no registry
call, and the flag is persisted. -/
theorem toggle_restart_required_iff_no_registry_witness :
    ((PluginHandler.Toggle failingOps
        { storage := some witnessStoreOk, pluginRegistry := (none : Option Unit) }
        "led" true).1 = ToggleResult.success "led" true true ∧
     ∃ store',
       (PluginHandler.Toggle failingOps
          { storage := some witnessStoreOk, pluginRegistry := (none : Option Unit) }
          "led" true).2.1.storage = some store' ∧
       ∃ cfg, store'.configs.lookup "led" = some cfg ∧ cfg.enabled = true) ∧
    (∀ eff ∈ (PluginHandler.Toggle failingOps
        { storage := some witnessStoreOk, pluginRegistry := (none : Option Unit) }
        "led" true).2.2, ¬ eff.isRegCall = true) :=
  ⟨(toggle_restart_required_iff_no_registry Unit failingOps
      { storage := some witnessStoreOk, pluginRegistry := none }
      "led" true).2.2 witnessStoreOk rfl rfl rfl rfl,
   ((toggle_restart_required_iff_no_registry Unit failingOps
      { storage := some witnessStoreOk, pluginRegistry := none }
      "led" true).2.1 rfl).1⟩

/-! # C4 -/

/-- A plugin with dependencies and event store present but no logger. -/
def witnessPluginNoLogger : BasePlugin :=
  { name := ("led").toList, description := [], version := ("1.0.0").toList,
    deps := some { config := none, hasEventStore := true },
    hasLogger := false }

/-- A plugin with dependencies, event store and logger all present. -/
def witnessPluginFull : BasePlugin :=
  { name := ("led").toList, description := [], version := ("1.0.0").toList,
    deps := some { config := none, hasEventStore := true },
    hasLogger := true }

/-- Counterexample for C4: `AddEvent` with the malformed event type
`"a b"` on a plugin whose logger is unset never forwards the event, but
also logs no warning — so "a warning is logged" does not hold for every
call with a malformed type. -/
theorem addevent_warning_counterexample :
    witnessPluginNoLogger.AddEvent (("a b").toList) (("msg").toList) =
      { forwarded := none, warned := none } := by
  rfl

/-- C4 (amended): `AddEvent` never forwards a malformed event type (in
particular one containing a space or a slash) and, when the dependency
bundle, the event store and a logger are present, logs a warning for it;
every well-formed event type with bundle and store present is forwarded
(namespaced under the plugin's name). -/
theorem addevent_validates_event_type (p : BasePlugin)
    (eventType message : List Char) :
    (((' ' ∈ eventType) ∨ ('/' ∈ eventType)) → validEventType eventType = false) ∧
    (validEventType eventType = false →
       (p.AddEvent eventType message).forwarded = none ∧
       (∀ deps, p.deps = some deps → deps.hasEventStore = true →
          p.hasLogger = true →
          (p.AddEvent eventType message).warned =
            some (('[' :: p.name ++
                   ("] WARNING: Invalid event type rejected: ").toList) ++
                  eventType))) ∧
    (validEventType eventType = true →
       ∀ deps, p.deps = some deps → deps.hasEventStore = true →
       (p.AddEvent eventType message).forwarded =
         some { eventType := ("plugin.").toList ++ p.name ++ '.' :: eventType,
                username := ("plugin").toList, ip := [], success := true,
                details := message }) := by
  refine ⟨?_, ?_, ?_⟩
  · intro hbad
    rcases hbad with hsp | hsl
    · simp [validEventType]
      intro _
      refine ⟨' ', hsp, ?_⟩
      decide
    · simp [validEventType]
      intro _
      refine ⟨'/', hsl, ?_⟩
      decide
  · intro hinvalid
    cases hdeps : p.deps with
    | none =>
      refine ⟨by simp [BasePlugin.AddEvent, hdeps], ?_⟩
      intro deps hd
      exact absurd hd (by simp)
    | some deps =>
      by_cases hstore : deps.hasEventStore
      · constructor
        · simp [BasePlugin.AddEvent, hdeps, hstore, hinvalid]
        · intro deps' hd hstore' hlog
          obtain rfl : deps = deps' := by injection hd
          simp [BasePlugin.AddEvent, hdeps, hstore, hinvalid, hlog]
      · constructor
        · simp [BasePlugin.AddEvent, hdeps, hstore]
        · intro deps' hd hstore'
          obtain rfl : deps = deps' := by injection hd
          exact absurd hstore' (by simpa using hstore)
  · intro hvalid deps hdeps hstore
    simp [BasePlugin.AddEvent, hdeps, hstore, hvalid]

/-- Witness for C4: the space-containing type `"a b"` is invalid, is not
forwarded, and with a logger present its rejection is logged; the valid
type `"fan.speed_set"` is forwarded namespaced. -/
theorem addevent_validates_event_type_witness :
    (validEventType (("a b").toList) = false ∧
     (witnessPluginFull.AddEvent (("a b").toList) (("m").toList)).forwarded =
       none ∧
     (witnessPluginFull.AddEvent (("a b").toList) (("m").toList)).warned =
       some (('[' :: (("led").toList) ++
              ("] WARNING: Invalid event type rejected: ").toList) ++
             ("a b").toList)) ∧
    (validEventType (("fan.speed_set").toList) = true ∧
     (witnessPluginFull.AddEvent (("fan.speed_set").toList)
        (("m").toList)).forwarded =
       some { eventType := ("plugin.").toList ++ (("led").toList) ++
                '.' :: (("fan.speed_set").toList),
              username := ("plugin").toList, ip := [], success := true,
              details := ("m").toList }) := by
  constructor
  · have hinv : validEventType (("a b").toList) = false := by decide
    have h := (addevent_validates_event_type witnessPluginFull
      (("a b").toList) (("m").toList)).2.1 hinv
    exact ⟨hinv, h.1, h.2 _ rfl rfl rfl⟩
  · have hval : validEventType (("fan.speed_set").toList) = true := by decide
    exact ⟨hval, (addevent_validates_event_type witnessPluginFull
      (("fan.speed_set").toList) (("m").toList)).2.2 hval _ rfl rfl⟩

/-! # C5 -/

/-- C5: `LEDPlugin.IsEnabled` returns exactly the persisted flag reported
by the durable store, is false when the bundle or the store is absent or
the lookup errors, and is independent of the plugin's runtime state. -/
theorem led_isenabled_reflects_persisted_flag (p : LEDPlugin) :
    (p.deps = none → p.IsEnabled = false) ∧
    (∀ d, p.deps = some d → d.storage = none → p.IsEnabled = false) ∧
    (∀ d s e, p.deps = some d → d.storage = some s →
       s.isPluginEnabled p.name = .error e → p.IsEnabled = false) ∧
    (∀ d s b, p.deps = some d → d.storage = some s →
       s.isPluginEnabled p.name = .ok b → p.IsEnabled = b) ∧
    (∀ st' auto' leds',
       LEDPlugin.IsEnabled
         { p with state := st', autoDisableOnStartup := auto', leds := leds' } =
       p.IsEnabled) := by
  refine ⟨?_, ?_, ?_, ?_, ?_⟩
  · intro h
    simp [LEDPlugin.IsEnabled, h]
  · intro d hd hs
    simp [LEDPlugin.IsEnabled, hd, hs]
  · intro d s e hd hs herr
    simp [LEDPlugin.IsEnabled, hd, hs, herr]
  · intro d s b hd hs hok
    simp [LEDPlugin.IsEnabled, hd, hs, hok]
  · intro st' auto' leds'
    rfl

/-- A concrete LED plugin whose store reports the flag `true`. -/
def witnessLEDPlugin : LEDPlugin :=
  { name := "led",
    deps := some { storage := some { isPluginEnabled := fun _ => .ok true } },
    state := { status := .disabled, totalLEDs := 0, enabledCount := 0,
               disabledCount := 0, lastUpdate := 0 },
    autoDisableOnStartup := false,
    leds := [] }

/-- Witness for C5: the concrete plugin reports the persisted flag `true`
whatever its runtime state holds. -/
theorem led_isenabled_reflects_persisted_flag_witness :
    witnessLEDPlugin.IsEnabled = true ∧
    LEDPlugin.IsEnabled
      { witnessLEDPlugin with
          state := { status := .enabled, totalLEDs := 3, enabledCount := 3,
                     disabledCount := 0, lastUpdate := 7 },
          autoDisableOnStartup := true,
          leds := [{ name := "led0", path := "/sys/class/leds/led0",
                     brightness := 1 }] } =
      witnessLEDPlugin.IsEnabled :=
  ⟨(led_isenabled_reflects_persisted_flag witnessLEDPlugin).2.2.2.1
      { storage := some { isPluginEnabled := fun _ => .ok true } }
      { isPluginEnabled := fun _ => .ok true } true rfl rfl rfl,
   (led_isenabled_reflects_persisted_flag witnessLEDPlugin).2.2.2.2 _ _ _⟩

/-! # C6 -/

/-- C6: `GetPluginSettingOrDefault` returns the stored value when the
setting is present in the unit's namespace, and the default in every other
case — missing namespace, missing key, absent bundle, absent accessor. -/
theorem get_plugin_setting_or_default_fallback (p : BasePlugin)
    (key d : List Char) :
    (p.deps = none → p.GetPluginSettingOrDefault key d = d) ∧
    (∀ deps, p.deps = some deps → deps.config = none →
       p.GetPluginSettingOrDefault key d = d) ∧
    (∀ deps c, p.deps = some deps → deps.config = some c →
       (c.pluginSettings.lookup p.name = none →
          p.GetPluginSettingOrDefault key d = d) ∧
       (∀ s, c.pluginSettings.lookup p.name = some s →
          (s.lookup key = none → p.GetPluginSettingOrDefault key d = d) ∧
          (∀ v, s.lookup key = some v →
             p.GetPluginSettingOrDefault key d = v))) := by
  refine ⟨?_, ?_, ?_⟩
  · intro h
    simp [BasePlugin.GetPluginSettingOrDefault, BasePlugin.GetPluginSetting, h]
  · intro deps hd hc
    simp [BasePlugin.GetPluginSettingOrDefault, BasePlugin.GetPluginSetting,
      hd, hc]
  · intro deps c hd hc
    constructor
    · intro hns
      simp [BasePlugin.GetPluginSettingOrDefault, BasePlugin.GetPluginSetting,
        Config.GetPluginSetting, hd, hc, hns]
    · intro s hns
      constructor
      · intro hk
        simp [BasePlugin.GetPluginSettingOrDefault, BasePlugin.GetPluginSetting,
          Config.GetPluginSetting, hd, hc, hns, hk]
      · intro v hk
        simp [BasePlugin.GetPluginSettingOrDefault, BasePlugin.GetPluginSetting,
          Config.GetPluginSetting, hd, hc, hns, hk]

/-- A concrete configuration with one setting in the `led` namespace. -/
def witnessConfig : Config :=
  { addr := (":80").toList, jwtSecret := [], jwtExpirationSecs := 86400,
    noAuth := false, socketPath := [],
    enabledPlugins := [],
    pluginSettings := [(("led").toList, [(("PWM_PATH").toList, ("/x").toList)])] }

/-- A plugin wired to `witnessConfig`. -/
def witnessPluginWithConfig : BasePlugin :=
  { name := ("led").toList, description := [], version := ("1").toList,
    deps := some { config := some witnessConfig, hasEventStore := false },
    hasLogger := false }

/-- Witness for C6: the present setting is returned, a missing key falls
back to the default, and a plugin without a bundle falls back too. -/
theorem get_plugin_setting_or_default_fallback_witness :
    (witnessPluginWithConfig.GetPluginSettingOrDefault (("PWM_PATH").toList)
       (("dflt").toList) = ("/x").toList) ∧
    (witnessPluginWithConfig.GetPluginSettingOrDefault (("OTHER").toList)
       (("dflt").toList) = ("dflt").toList) ∧
    (BasePlugin.GetPluginSettingOrDefault
       { name := ("led").toList, description := [], version := [],
         deps := none, hasLogger := false }
       (("PWM_PATH").toList) (("dflt").toList) = ("dflt").toList) := by
  refine ⟨?_, ?_, ?_⟩
  · exact (((get_plugin_setting_or_default_fallback witnessPluginWithConfig
      (("PWM_PATH").toList) (("dflt").toList)).2.2 _ witnessConfig rfl rfl).2
      [(("PWM_PATH").toList, ("/x").toList)] (by decide)).2 (("/x").toList)
      (by decide)
  · exact (((get_plugin_setting_or_default_fallback witnessPluginWithConfig
      (("OTHER").toList) (("dflt").toList)).2.2 _ witnessConfig rfl rfl).2
      [(("PWM_PATH").toList, ("/x").toList)] (by decide)).1 (by decide)
  · exact (get_plugin_setting_or_default_fallback
      { name := ("led").toList, description := [], version := [],
        deps := none, hasLogger := false }
      (("PWM_PATH").toList) (("dflt").toList)).1 rfl

/-! # C8 -/

/-- C8: messages emitted through `LogInfo`/`LogError` are written with the
unit's name in square brackets as prefix (`LogError` with an `ERROR`
marker), and nothing is written when no logger has been set. -/
theorem log_prefixed_with_unit_name (p : BasePlugin) (format : List Char) :
    (p.hasLogger = true →
       p.LogInfo format = some ('[' :: p.name ++ ("] ").toList ++ format) ∧
       p.LogError format =
         some ('[' :: p.name ++ ("] ERROR: ").toList ++ format)) ∧
    (p.hasLogger = false → p.LogInfo format = none ∧ p.LogError format = none) ∧
    (∀ w, p.LogInfo format = some w ∨ p.LogError format = some w →
       ∃ rest, w = '[' :: (p.name ++ ']' :: ' ' :: rest)) := by
  refine ⟨?_, ?_, ?_⟩
  · intro h
    simp [BasePlugin.LogInfo, BasePlugin.LogError, h]
  · intro h
    simp [BasePlugin.LogInfo, BasePlugin.LogError, h]
  · intro w hw
    by_cases h : p.hasLogger
    · rcases hw with hw | hw
      · simp [BasePlugin.LogInfo, h] at hw
        exact ⟨format, by simp [hw.symm]⟩
      · simp [BasePlugin.LogError, h] at hw
        refine ⟨("ERROR: ").toList ++ format, by simp [hw.symm]⟩
    · rcases hw with hw | hw <;>
        simp [BasePlugin.LogInfo, BasePlugin.LogError, h] at hw

/-- Witness for C8: concrete outputs for a plugin with a logger and the
absence of output without one. -/
theorem log_prefixed_with_unit_name_witness :
    (witnessPluginFull.LogInfo (("started").toList) =
       some ('[' :: (("led").toList) ++ ("] ").toList ++ ("started").toList) ∧
     witnessPluginFull.LogError (("bad").toList) =
       some ('[' :: (("led").toList) ++ ("] ERROR: ").toList ++ ("bad").toList)) ∧
    (witnessPluginNoLogger.LogInfo (("started").toList) = none ∧
     witnessPluginNoLogger.LogError (("bad").toList) = none) :=
  ⟨⟨((log_prefixed_with_unit_name witnessPluginFull (("started").toList)).1
       rfl).1,
    ((log_prefixed_with_unit_name witnessPluginFull (("bad").toList)).1
       rfl).2⟩,
   ⟨((log_prefixed_with_unit_name witnessPluginNoLogger (("started").toList)).2.1
       rfl).1,
    ((log_prefixed_with_unit_name witnessPluginNoLogger (("bad").toList)).2.1
       rfl).2⟩⟩

/-! # C10 -/

/-- C10: `Toggle` does not require the name to denote a registered unit —
when the config lookup reports not-found, a fresh record
`{name, enabled = requested}` is created and persisted, and with no
dynamic registry attached the call still answers success for that
arbitrary name. -/
theorem toggle_accepts_unregistered_names
    (R : Type) (ops : RegistryOps R) (st : ServerState R)
    (name : String) (req : Bool) :
    ∀ s, st.storage = some s → s.getErr = none →
      s.configs.lookup name = none → s.setErr = none →
      (∃ store',
         (PluginHandler.Toggle ops st name req).2.1.storage = some store' ∧
         store'.configs.lookup name =
           some { enabled := req, pcName := name }) ∧
      (st.pluginRegistry = none →
         (PluginHandler.Toggle ops st name req).1 =
           ToggleResult.success name req true) := by
  intro s hs hge hlook hse
  have hget : s.GetPluginConfig name = .error .notFound := by
    simp [Store.GetPluginConfig, hge, hlook]
  have hstart : PluginHandler.Toggle ops st name req =
      toggleAfterGet ops st s name req { enabled := req, pcName := name } := by
    simp [PluginHandler.Toggle, hs, hget]
  have hstore' : s.SetPluginConfig name { enabled := req, pcName := name } =
      .ok { s with configs := (insertA s.configs name { enabled := req, pcName := name }) } := by
    simp [Store.SetPluginConfig, hse]
  have hlookup :
      (insertA s.configs name { enabled := req, pcName := name }).lookup name =
        some { enabled := req, pcName := name } :=
    lookup_insertA_self s.configs name _
  cases hreg : st.pluginRegistry with
  | none =>
    have hafter : toggleAfterGet ops st s name req
        { enabled := req, pcName := name } =
        (.success name req true,
         { storage := some { s with configs := (insertA s.configs name { enabled := req, pcName := name }) },
           pluginRegistry := none },
         [.getConfig name,
          .setConfig name { enabled := req, pcName := name } true]) := by
      simp [toggleAfterGet, hstore', hreg]
    rw [hstart, hafter]
    exact ⟨⟨_, rfl, hlookup⟩, fun _ => rfl⟩
  | some reg =>
    cases hcall : (if req then ops.enablePlugin reg name
                   else ops.disablePlugin reg name) with
    | error e2 =>
      have hafter : toggleAfterGet ops st s name req
          { enabled := req, pcName := name } =
          (.httpError 500 ("Failed to toggle plugin: " ++ e2),
           { storage := some { s with configs := (insertA s.configs name { enabled := req, pcName := name }) },
             pluginRegistry := some reg },
           [.getConfig name,
            .setConfig name { enabled := req, pcName := name } true,
            if req then .enablePlugin name else .disablePlugin name]) := by
        simp [toggleAfterGet, hstore', hreg, hcall]
      rw [hstart, hafter]
      refine ⟨⟨_, rfl, hlookup⟩, ?_⟩
      intro hregnone
      simp at hregnone
    | ok reg' =>
      have hafter : toggleAfterGet ops st s name req
          { enabled := req, pcName := name } =
          (.success name req false,
           { storage := some { s with configs := (insertA s.configs name { enabled := req, pcName := name }) },
             pluginRegistry := some reg' },
           [.getConfig name,
            .setConfig name { enabled := req, pcName := name } true,
            if req then .enablePlugin name else .disablePlugin name]) := by
        simp [toggleAfterGet, hstore', hreg, hcall]
      rw [hstart, hafter]
      refine ⟨⟨_, rfl, hlookup⟩, ?_⟩
      intro hregnone
      simp at hregnone

/-- An empty, healthy store: no unit name is registered in it. -/
def witnessEmptyStore : Store :=
  { configs := [], getErr := none, setErr := none }

/-- Witness for C10: toggling the arbitrary name `ghost` against the empty
store with no registry attached persists a fresh record and answers
success. -/
theorem toggle_accepts_unregistered_names_witness :
    (∃ store',
       (PluginHandler.Toggle failingOps
          { storage := some witnessEmptyStore,
            pluginRegistry := (none : Option Unit) }
          "ghost" true).2.1.storage = some store' ∧
       store'.configs.lookup "ghost" =
         some { enabled := true, pcName := "ghost" }) ∧
    (PluginHandler.Toggle failingOps
       { storage := some witnessEmptyStore,
         pluginRegistry := (none : Option Unit) }
       "ghost" true).1 = ToggleResult.success "ghost" true true := by
  have h := toggle_accepts_unregistered_names Unit failingOps
    { storage := some witnessEmptyStore, pluginRegistry := none }
    "ghost" true witnessEmptyStore rfl rfl rfl rfl
  exact ⟨h.1, h.2 rfl⟩

/-! # C7 -/

theorem isPrefixOf_append_self (l t : List Char) :
    l.isPrefixOf (l ++ t) = true := by
  induction l with
  | nil => simp [List.isPrefixOf]
  | cons a as ih => simp [List.isPrefixOf, ih]

theorem findIdx?_append_first (p : Char → Bool) (l : List Char) (x : Char)
    (t : List Char) (hl : ∀ c ∈ l, p c = false) (hx : p x = true) :
    ∀ i, List.findIdx? p (l ++ x :: t) i = some (l.length + i) := by
  induction l with
  | nil =>
    intro i
    simp [List.findIdx?, hx]
  | cons a as ih =>
    intro i
    have ha : p a = false := hl a (by simp)
    have has : ∀ c ∈ as, p c = false := fun c hc => hl c (by simp [hc])
    simp only [List.cons_append, List.findIdx?, ha, List.append_eq]
    rw [if_neg (by simp [ha])]
    rw [ih has (i + 1)]
    congr 1
    simp [List.length_cons]
    omega

/-- Splitting of a well-formed plugin key: `PLUGIN_<NAME>_<KEY>` with an
underscore-free nonempty name and a nonempty key parses to the lowercased
name and the key. -/
theorem parsePluginKey_split (n k : List Char) (hn : n ≠ []) (hu : '_' ∉ n)
    (hk : k ≠ []) :
    parsePluginKey (("PLUGIN_").toList ++ n ++ '_' :: k) =
      some (toLowerList n, k) := by
  have hpre : (("PLUGIN_").toList).isPrefixOf
      (("PLUGIN_").toList ++ n ++ '_' :: k) = true := by
    rw [List.append_assoc]
    exact isPrefixOf_append_self _ _
  have hdrop : ((("PLUGIN_").toList ++ n ++ '_' :: k).drop 7) = n ++ '_' :: k := by
    rw [List.append_assoc]
    exact List.drop_left ("PLUGIN_").toList (n ++ '_' :: k)
  have hfind : List.findIdx? (· = '_') (n ++ '_' :: k) 0 = some n.length := by
    have := findIdx?_append_first (· = '_') n '_' k
      (fun c hc => by
        simp only [decide_eq_false_iff_not]
        exact fun h => hu (h ▸ hc))
      (by simp) 0
    simpa using this
  have hlen : (n ++ '_' :: k).length = n.length + 1 + k.length := by
    simp [List.length_append]
    omega
  have hne0 : n.length ≠ 0 := by
    cases n with
    | nil => exact absurd rfl hn
    | cons a as => simp
  have hnelast : n.length ≠ (n ++ '_' :: k).length - 1 := by
    rw [hlen]
    have : k.length ≠ 0 := by
      cases k with
      | nil => exact absurd rfl hk
      | cons a as => simp
    omega
  have htake : (n ++ '_' :: k).take n.length = n := List.take_left n ('_' :: k)
  have hdrop2 : (n ++ '_' :: k).drop (n.length + 1) = k := by
    have : n ++ '_' :: k = (n ++ ['_']) ++ k := by simp
    rw [this]
    have hlen2 : (n ++ ['_']).length = n.length + 1 := by simp
    rw [← hlen2]
    exact List.drop_left (n ++ ['_']) k
  unfold parsePluginKey
  rw [if_pos hpre]
  simp only [hdrop, hfind]
  rw [if_neg (by
    push_neg
    exact ⟨hne0, hnelast⟩)]
  rw [htake, hdrop2]

/-- Lookup in the settings fold only depends on the entries contributing to
the plugin being looked up. -/
theorem applySettingsValues_filter (p : List Char)
    (values : List (List Char × List Char)) :
    ∀ ps1 ps2 : List (List Char × List (List Char × List Char)),
      ps1.lookup p = ps2.lookup p →
      (applySettingsValues ps1 values).lookup p =
      (applySettingsValues ps2 (values.filter (fun kv =>
        match parsePluginKey kv.1 with
        | some nk => nk.1 = p
        | none => false))).lookup p := by
  induction values with
  | nil =>
    intro ps1 ps2 h
    simpa [applySettingsValues] using h
  | cons kv rest ih =>
    intro ps1 ps2 h
    cases hparse : parsePluginKey kv.1 with
    | none =>
      have hfilter : (kv :: rest).filter (fun kv =>
          match parsePluginKey kv.1 with
          | some nk => nk.1 = p
          | none => false) = rest.filter (fun kv =>
          match parsePluginKey kv.1 with
          | some nk => nk.1 = p
          | none => false) := by
        simp [List.filter, hparse]
      rw [hfilter]
      have hstep : applySettingsValues ps1 (kv :: rest) =
          applySettingsValues ps1 rest := by
        simp [applySettingsValues, hparse]
      rw [hstep]
      exact ih ps1 ps2 h
    | some nk =>
      by_cases hp : nk.1 = p
      · have hfilter : (kv :: rest).filter (fun kv =>
            match parsePluginKey kv.1 with
            | some nk => nk.1 = p
            | none => false) = kv :: rest.filter (fun kv =>
            match parsePluginKey kv.1 with
            | some nk => nk.1 = p
            | none => false) := by
          simp [List.filter, hparse, hp]
        rw [hfilter]
        have hstep1 : applySettingsValues ps1 (kv :: rest) =
            applySettingsValues
              (insertA ps1 nk.1 (insertA ((ps1.lookup nk.1).getD []) nk.2 kv.2))
              rest := by
          simp [applySettingsValues, hparse]
        have hstep2 : applySettingsValues ps2 (kv :: rest.filter (fun kv =>
            match parsePluginKey kv.1 with
            | some nk => nk.1 = p
            | none => false)) =
            applySettingsValues
              (insertA ps2 nk.1 (insertA ((ps2.lookup nk.1).getD []) nk.2 kv.2))
              (rest.filter (fun kv =>
                match parsePluginKey kv.1 with
                | some nk => nk.1 = p
                | none => false)) := by
          simp [applySettingsValues, hparse]
        rw [hstep1, hstep2]
        apply ih
        subst hp
        rw [h]
        simp only [lookup_insertA_self]
      · have hfilter : (kv :: rest).filter (fun kv =>
            match parsePluginKey kv.1 with
            | some nk => nk.1 = p
            | none => false) = rest.filter (fun kv =>
            match parsePluginKey kv.1 with
            | some nk => nk.1 = p
            | none => false) := by
          simp [List.filter, hparse, hp]
        rw [hfilter]
        have hstep : applySettingsValues ps1 (kv :: rest) =
            applySettingsValues
              (insertA ps1 nk.1 (insertA ((ps1.lookup nk.1).getD []) nk.2 kv.2))
              rest := by
          simp [applySettingsValues, hparse]
        rw [hstep]
        apply ih
        simp only [lookup_insertA_ne ps1 nk.1 p
          (insertA ((List.lookup nk.1 ps1).getD []) nk.2 kv.2)
          (fun hne => hp hne.symm)]
        exact h

/-- The plugin-settings component of `applyValues` is exactly the settings
fold, independent of all other configuration fields. -/
theorem applyValues_pluginSettings (c : Config)
    (values : List (List Char × List Char)) :
    (c.applyValues values).pluginSettings = applySettingsValues [] values := rfl

/-- C7: plugin settings are namespaced by unit name — a key
`PLUGIN_<NAME>_<KEY>` (underscore-free nonempty name, nonempty key)
contributes `<KEY>` exactly to the namespace of the lowercased name;
`GetPluginSetting p k` depends only on the entries parsing to plugin `p`
(hence not on entries of other unit names) and not on the enabled-plugins
list; keys without a valid name/key split contribute nothing. -/
theorem plugin_settings_namespaced :
    (∀ (cfg0 : Config) (n k v : List Char), n ≠ [] → '_' ∉ n → k ≠ [] →
       parsePluginKey (("PLUGIN_").toList ++ n ++ '_' :: k) =
         some (toLowerList n, k) ∧
       Config.GetPluginSetting
         (cfg0.applyValues [(("PLUGIN_").toList ++ n ++ '_' :: k, v)])
         (toLowerList n) k = (v, true)) ∧
    (∀ (cfg0 : Config) (values : List (List Char × List Char)) (p k : List Char),
       Config.GetPluginSetting (cfg0.applyValues values) p k =
       Config.GetPluginSetting (cfg0.applyValues (values.filter (fun kv =>
         match parsePluginKey kv.1 with
         | some nk => nk.1 = p
         | none => false))) p k) ∧
    (∀ (c : Config) (p k : List Char) (eps : List (List Char)),
       Config.GetPluginSetting { c with enabledPlugins := eps } p k =
         Config.GetPluginSetting c p k) ∧
    (∀ (cfg0 : Config) (key v : List Char)
       (values : List (List Char × List Char)),
       parsePluginKey key = none →
       (cfg0.applyValues ((key, v) :: values)).pluginSettings =
         (cfg0.applyValues values).pluginSettings) := by
  refine ⟨?_, ?_, ?_, ?_⟩
  · intro cfg0 n k v hn hu hk
    have hsplit := parsePluginKey_split n k hn hu hk
    refine ⟨hsplit, ?_⟩
    have hsplit2 : parsePluginKey
        ('P' :: 'L' :: 'U' :: 'G' :: 'I' :: 'N' :: '_' :: (n ++ '_' :: k)) =
        some (toLowerList n, k) := hsplit
    unfold Config.GetPluginSetting
    rw [applyValues_pluginSettings]
    simp [applySettingsValues, insertA, List.lookup, hsplit2]
  · intro cfg0 values p k
    unfold Config.GetPluginSetting
    rw [applyValues_pluginSettings, applyValues_pluginSettings]
    rw [applySettingsValues_filter p values [] [] rfl]
  · intro c p k eps
    rfl
  · intro cfg0 key v values hparse
    rw [applyValues_pluginSettings, applyValues_pluginSettings]
    simp [applySettingsValues, hparse]

/-- Witness for C7: the concrete key `PLUGIN_FANS_PWM_PATH` lands as
setting `PWM_PATH` of plugin `fans`, an entry of another plugin does not
affect `fans`, and a prefix-less key contributes nothing. -/
theorem plugin_settings_namespaced_witness :
    (("FANS").toList ≠ [] ∧ ¬ '_' ∈ ("FANS").toList ∧
       ("PWM_PATH").toList ≠ []) ∧
    parsePluginKey (("PLUGIN_").toList ++ ("FANS").toList ++
        '_' :: ("PWM_PATH").toList) =
      some (toLowerList (("FANS").toList), ("PWM_PATH").toList) ∧
    Config.GetPluginSetting
      (witnessConfig.applyValues [(("PLUGIN_").toList ++ ("FANS").toList ++
          '_' :: ("PWM_PATH").toList, ("/x").toList)])
      (toLowerList (("FANS").toList)) (("PWM_PATH").toList) =
      (("/x").toList, true) ∧
    (witnessConfig.applyValues
        [(("NOPREFIX").toList, ("1").toList)]).pluginSettings =
      (witnessConfig.applyValues []).pluginSettings := by
  have h1 : ("FANS").toList ≠ [] := by decide
  have h2 : ¬ '_' ∈ ("FANS").toList := by decide
  have h3 : ("PWM_PATH").toList ≠ [] := by decide
  have hmain := (plugin_settings_namespaced).1 witnessConfig
    (("FANS").toList) (("PWM_PATH").toList) (("/x").toList) h1 h2 h3
  refine ⟨⟨h1, h2, h3⟩, hmain.1, hmain.2, ?_⟩
  exact (plugin_settings_namespaced).2.2.2 witnessConfig
    (("NOPREFIX").toList) (("1").toList) [] (by decide)

/-! # C9 — helper lemmas -/

theorem charNeOfToNat (c d : Char) (hd : c.toNat ≠ d.toNat) :
    (decide (c = d)) = false := by
  simp only [decide_eq_false_iff_not]
  exact fun he => hd (by rw [he])

theorem charNotLeOfToNat (c d : Char) (hd : ¬ d.toNat ≤ c.toNat) :
    (decide (d ≤ c)) = false := by
  simp only [decide_eq_false_iff_not]
  exact fun hc => hd hc

/-- A character accepted by `isValidKey` lies in the ASCII alphanumeric or
underscore code-point ranges. -/
theorem char_toNat_ranges (c : Char)
    (h : (c.isAlpha || c.isDigit || c = '_') = true) :
    (65 ≤ c.toNat ∧ c.toNat ≤ 90) ∨ (97 ≤ c.toNat ∧ c.toNat ≤ 122) ∨
    (48 ≤ c.toNat ∧ c.toNat ≤ 57) ∨ c.toNat = 95 := by
  simp only [Char.isAlpha, Char.isUpper, Char.isLower, Char.isDigit,
    Bool.or_eq_true, Bool.and_eq_true, decide_eq_true_eq] at h
  rcases h with ((⟨h1, h2⟩ | ⟨h1, h2⟩) | ⟨h1, h2⟩) | h1
  · exact Or.inl ⟨h1, h2⟩
  · exact Or.inr (Or.inl ⟨h1, h2⟩)
  · exact Or.inr (Or.inr (Or.inl ⟨h1, h2⟩))
  · exact Or.inr (Or.inr (Or.inr (by rw [h1]; rfl)))

/-- Key characters are not Go white space. -/
theorem validKeyChar_not_space (c : Char)
    (h : (c.isAlpha || c.isDigit || c = '_') = true) :
    goIsSpace c = false := by
  have hn := char_toNat_ranges c h
  simp only [goIsSpace]
  rw [charNeOfToNat c '\t' (by have : ('\t').toNat = 9 := rfl; omega),
    charNeOfToNat c '\n' (by have : ('\n').toNat = 10 := rfl; omega),
    charNeOfToNat c '\x0B' (by have : ('\x0B').toNat = 11 := rfl; omega),
    charNeOfToNat c '\x0C' (by have : ('\x0C').toNat = 12 := rfl; omega),
    charNeOfToNat c '\r' (by have : ('\r').toNat = 13 := rfl; omega),
    charNeOfToNat c ' ' (by have : (' ').toNat = 32 := rfl; omega),
    charNeOfToNat c '\u0085' (by have : ('\u0085').toNat = 133 := rfl; omega),
    charNeOfToNat c ' ' (by have : (' ').toNat = 160 := rfl; omega),
    charNeOfToNat c ' ' (by have : (' ').toNat = 5760 := rfl; omega),
    charNotLeOfToNat c ' '
      (by have : (' ').toNat = 8192 := rfl; omega),
    charNeOfToNat c ' ' (by have : (' ').toNat = 8232 := rfl; omega),
    charNeOfToNat c ' ' (by have : (' ').toNat = 8233 := rfl; omega),
    charNeOfToNat c ' ' (by have : (' ').toNat = 8239 := rfl; omega),
    charNeOfToNat c ' ' (by have : (' ').toNat = 8287 := rfl; omega),
    charNeOfToNat c '　'
      (by have : ('　').toNat = 12288 := rfl; omega)]
  simp

/-- Key characters differ from `=`. -/
theorem validKeyChar_ne_eq (c : Char)
    (h : (c.isAlpha || c.isDigit || c = '_') = true) :
    (decide (c = '=')) = false := by
  have hn := char_toNat_ranges c h
  exact charNeOfToNat c '=' (by have : ('=').toNat = 61 := rfl; omega)

/-- Key characters differ from `#`. -/
theorem validKeyChar_ne_hash (c : Char)
    (h : (c.isAlpha || c.isDigit || c = '_') = true) :
    (decide (c = '#')) = false := by
  have hn := char_toNat_ranges c h
  exact charNeOfToNat c '#' (by have : ('#').toNat = 35 := rfl; omega)

/-- `trimSpace` is the identity when the end characters are not white
space. -/
theorem trimSpace_eq_self (l : List Char)
    (hh : ∀ c, l.head? = some c → goIsSpace c = false)
    (hl : ∀ c, l.getLast? = some c → goIsSpace c = false) :
    trimSpace l = l := by
  unfold trimSpace
  have h1 : l.dropWhile goIsSpace = l := by
    cases hl0 : l with
    | nil => rfl
    | cons a as =>
      rw [List.dropWhile_cons_of_neg]
      simp only [Bool.not_eq_true]
      exact hh a (by rw [hl0]; rfl)
  rw [h1]
  have h2 : l.reverse.dropWhile goIsSpace = l.reverse := by
    cases hr : l.reverse with
    | nil => rfl
    | cons a as =>
      rw [List.dropWhile_cons_of_neg]
      simp only [Bool.not_eq_true]
      apply hl
      rw [← List.head?_reverse, hr]
      rfl
  rw [h2, List.reverse_reverse]

/-- Characters of a value the writer leaves unquoted. -/
theorem not_needsQuoting_chars (v : List Char) (h : needsQuoting v = false) :
    ∀ c ∈ v, (decide (c = ' ')) = false ∧ (decide (c = '\t')) = false ∧
      (decide (c = '\n')) = false ∧ (decide (c = '\r')) = false ∧
      (decide (c = '"')) = false ∧ (decide (c = '\'')) = false ∧
      (decide (c = '#')) = false ∧ (decide (c = '\\')) = false := by
  intro c hc
  unfold needsQuoting at h
  have hv : v ≠ [] := by
    intro he
    rw [he] at hc
    exact List.not_mem_nil c hc
  rw [if_neg hv] at h
  rw [List.any_eq_false] at h
  have hc' := h c hc
  simp only [Bool.not_eq_true, Bool.or_eq_false_iff] at hc'
  obtain ⟨⟨⟨⟨⟨⟨⟨h1, h2⟩, h3⟩, h4⟩, h5⟩, h6⟩, h7⟩, h8⟩ := hc'
  exact ⟨h1, h2, h3, h4, h5, h6, h7, h8⟩

/-- A value without spaces has no inline-comment marker. -/
theorem indexOfSub_space_hash_none (v : List Char)
    (hsp : ∀ c ∈ v, (decide (c = ' ')) = false) :
    indexOfSub [' ', '#'] v = none := by
  induction v with
  | nil => rfl
  | cons c rest ih =>
    unfold indexOfSub
    rw [if_neg ?_]
    · rw [ih (fun d hd => hsp d (by simp [hd]))]
      rfl
    · intro hpre
      have : (' ' == c) = true := by
        have := hpre
        simp only [List.isPrefixOf, Bool.and_eq_true] at this
        exact this.1
      have hc := hsp c (by simp)
      simp only [beq_iff_eq] at this
      rw [← this] at hc
      simp at hc

/-- `escapeValue` maps no character to the empty string. -/
theorem escapeValue_eq_nil (v : List Char) (h : escapeValue v = []) :
    v = [] := by
  cases v with
  | nil => rfl
  | cons c rest =>
    exfalso
    unfold escapeValue at h
    rw [List.flatMap_cons] at h
    unfold escChar at h
    split_ifs at h <;> simp at h

/-- The parser's escape decoding inverts the writer's escaping exactly. -/
theorem parseQuotedValue_escapeValue (v : List Char) :
    parseQuotedValue (escapeValue v) = v := by
  induction v with
  | nil => rfl
  | cons c rest ih =>
    have hstep : escapeValue (c :: rest) = escChar c ++ escapeValue rest := by
      unfold escapeValue
      rw [List.flatMap_cons]
    rw [hstep]
    by_cases h1 : c = '"'
    · subst h1
      have : escChar '"' = ['\\', '"'] := rfl
      rw [this]
      simp only [List.cons_append, List.nil_append]
      unfold parseQuotedValue
      rw [if_pos rfl]
      rw [ih]
      rfl
    · by_cases h2 : c = '\\'
      · subst h2
        have : escChar '\\' = ['\\', '\\'] := rfl
        rw [this]
        simp only [List.cons_append, List.nil_append]
        unfold parseQuotedValue
        rw [if_pos rfl]
        rw [ih]
        rfl
      · by_cases h3 : c = '\n'
        · subst h3
          have : escChar '\n' = ['\\', 'n'] := rfl
          rw [this]
          simp only [List.cons_append, List.nil_append]
          unfold parseQuotedValue
          rw [if_pos rfl]
          rw [ih]
          rfl
        · by_cases h4 : c = '\t'
          · subst h4
            have : escChar '\t' = ['\\', 't'] := rfl
            rw [this]
            simp only [List.cons_append, List.nil_append]
            unfold parseQuotedValue
            rw [if_pos rfl]
            rw [ih]
            rfl
          · by_cases h5 : c = '\r'
            · subst h5
              have : escChar '\r' = ['\\', 'r'] := rfl
              rw [this]
              simp only [List.cons_append, List.nil_append]
              unfold parseQuotedValue
              rw [if_pos rfl]
              rw [ih]
              rfl
            · have hesc : escChar c = [c] := by
                unfold escChar
                rw [if_neg h1, if_neg h2, if_neg h3, if_neg h4, if_neg h5]
              rw [hesc]
              simp only [List.cons_append, List.nil_append]
              cases hrest : escapeValue rest with
              | nil =>
                have := escapeValue_eq_nil rest hrest
                subst this
                rfl
              | cons d ds =>
                unfold parseQuotedValue
                rw [if_neg h2]
                rw [← hrest, ih]

theorem mem_of_head?_eq (l : List Char) (c : Char) (h : l.head? = some c) :
    c ∈ l := by
  cases l with
  | nil => simp at h
  | cons a as =>
    simp only [List.head?_cons, Option.some.injEq] at h
    rw [← h]
    simp

theorem mem_of_getLast?_eq (l : List Char) (c : Char)
    (h : l.getLast? = some c) : c ∈ l :=
  List.mem_of_mem_getLast? (by rw [h]; rfl)

/-- Parsing a line `key=t` with a valid key yields the key and the parsed
raw value, provided `t` does not end in white space. -/
theorem parseLine_keyval (k t : List Char) (hk : k ≠ [])
    (hkv : isValidKey k = true)
    (htns : ∀ c, t.getLast? = some c → goIsSpace c = false) :
    parseLine (k ++ '=' :: t) = some (k, parseValue t) := by
  have hall : ∀ c ∈ k, (c.isAlpha || c.isDigit || c = '_') = true := by
    intro c hc
    exact List.all_eq_true.mp hkv c hc
  have hknospace : ∀ c ∈ k, goIsSpace c = false :=
    fun c hc => validKeyChar_not_space c (hall c hc)
  have hkne : ∀ c ∈ k, (decide (c = '=')) = false :=
    fun c hc => validKeyChar_ne_eq c (hall c hc)
  have hkhash : ∀ c ∈ k, (decide (c = '#')) = false :=
    fun c hc => validKeyChar_ne_hash c (hall c hc)
  have htrimk : trimSpace k = k :=
    trimSpace_eq_self k
      (fun c hc => hknospace c (mem_of_head?_eq k c hc))
      (fun c hc => hknospace c (mem_of_getLast?_eq k c hc))
  obtain ⟨c0, k', rfl⟩ : ∃ c0 k', k = c0 :: k' := by
    cases k with
    | nil => exact absurd rfl hk
    | cons a as => exact ⟨a, as, rfl⟩
  have hline_head : ((c0 :: k') ++ '=' :: t).head? = some c0 := rfl
  have hline_last : ∀ c, ((c0 :: k') ++ '=' :: t).getLast? = some c →
      goIsSpace c = false := by
    intro c hc
    cases ht : t with
    | nil =>
      rw [ht] at hc
      have : ((c0 :: k') ++ '=' :: ([] : List Char)) =
          (c0 :: k') ++ ['='] := rfl
      rw [this, List.getLast?_concat] at hc
      obtain rfl : '=' = c := by injection hc
      decide
    | cons d ds =>
      rw [List.getLast?_append_of_ne_nil _ (by simp)] at hc
      have h2 : ('=' :: t).getLast? = t.getLast? := by
        rw [show ('=' :: t) = ['='] ++ t from rfl]
        exact List.getLast?_append_of_ne_nil _ (by rw [ht]; simp)
      rw [h2] at hc
      exact htns c hc
  have htrimline : trimSpace ((c0 :: k') ++ '=' :: t) = (c0 :: k') ++ '=' :: t :=
    trimSpace_eq_self _
      (fun c hc => by
        rw [hline_head] at hc
        obtain rfl : c0 = c := by injection hc
        exact hknospace c0 (by simp))
      hline_last
  have hfind : List.findIdx? (fun x => decide (x = '='))
      ((c0 :: k') ++ '=' :: t) 0 = some (c0 :: k').length := by
    have := findIdx?_append_first (fun x => decide (x = '='))
      (c0 :: k') '=' t hkne (by simp) 0
    simpa using this
  have htake : ((c0 :: k') ++ '=' :: t).take (c0 :: k').length = c0 :: k' :=
    List.take_left (c0 :: k') ('=' :: t)
  have hdrop : ((c0 :: k') ++ '=' :: t).drop ((c0 :: k').length + 1) = t := by
    have h1 : (c0 :: k') ++ '=' :: t = ((c0 :: k') ++ ['=']) ++ t := by simp
    rw [h1]
    have h2 : ((c0 :: k') ++ ['=']).length = (c0 :: k').length + 1 := by simp
    rw [← h2]
    exact List.drop_left _ t
  have hnc : ¬((c0 :: k') ++ '=' :: t = [] ∨
      ((c0 :: k') ++ '=' :: t).head? = some '#') := by
    push_neg
    refine ⟨by simp, ?_⟩
    rw [hline_head]
    intro hc
    have heq : c0 = '#' := by injection hc
    have h' := hkhash c0 (by simp)
    rw [heq] at h'
    simp at h'
  have hkc : ¬((c0 :: k' : List Char) = [] ∨ ¬ isValidKey (c0 :: k') = true) := by
    push_neg
    exact ⟨by simp, by simp [hkv]⟩
  simp only [parseLine, htrimline, hnc, hfind, htake, htrimk, hdrop, hkc,
    if_false, ite_false]

/-- `parseValue` undoes the writer's quoting. -/
theorem parseValue_quoted (v : List Char) :
    parseValue ('"' :: (escapeValue v ++ ['"'])) = v := by
  have hlast : ('"' :: (escapeValue v ++ ['"'])).getLast? = some '"' := by
    rw [show ('"' :: (escapeValue v ++ ['"'])) =
        ('"' :: escapeValue v) ++ ['"'] from by simp]
    exact List.getLast?_concat _
  have htrim : trimSpace ('"' :: (escapeValue v ++ ['"'])) =
      '"' :: (escapeValue v ++ ['"']) :=
    trimSpace_eq_self _
      (fun c hc => by
        simp only [List.head?_cons, Option.some.injEq] at hc
        rw [← hc]
        decide)
      (fun c hc => by
        rw [hlast] at hc
        obtain rfl : '"' = c := by injection hc
        decide)
  have hlen : 2 ≤ ('"' :: (escapeValue v ++ ['"'])).length := by
    simp
  simp [parseValue, htrim, hlast, hlen, parseQuotedValue_escapeValue]

/-- `parseValue` is the identity on unquoted safe values. -/
theorem parseValue_unquoted (v : List Char) (hq : needsQuoting v = false)
    (hb : roundtripValue v = true) : parseValue v = v := by
  cases hv : v with
  | nil => rfl
  | cons c1 v' =>
    rw [← hv]
    have hchars := not_needsQuoting_chars v hq
    have hbb : (match v.head? with
        | some c => !goIsSpace c
        | none => true) = true ∧ (match v.getLast? with
        | some c => !goIsSpace c
        | none => true) = true := by
      unfold roundtripValue at hb
      rw [hq] at hb
      simpa using hb
    have hh : ∀ c, v.head? = some c → goIsSpace c = false := by
      intro c hc
      have := hbb.1
      rw [hc] at this
      simpa using this
    have hl : ∀ c, v.getLast? = some c → goIsSpace c = false := by
      intro c hc
      have := hbb.2
      rw [hc] at this
      simpa using this
    have htrim : trimSpace v = v := trimSpace_eq_self v hh hl
    have hidx : indexOfSub [' ', '#'] v = none :=
      indexOfSub_space_hash_none v (fun c hc => (hchars c hc).1)
    have hne1 : ¬ v.head? = some '"' := by
      rw [hv]
      intro hc
      have h1 : c1 = '"' := by injection hc
      have h2 := (hchars c1 (by rw [hv]; simp)).2.2.2.2.1
      rw [h1] at h2
      simp at h2
    have hne2 : ¬ v.head? = some '\'' := by
      rw [hv]
      intro hc
      have h1 : c1 = '\'' := by injection hc
      have h2 := (hchars c1 (by rw [hv]; simp)).2.2.2.2.2.1
      rw [h1] at h2
      simp at h2
    have hvne : v ≠ [] := by rw [hv]; simp
    simp [parseValue, htrim, hidx, hne1, hne2, hvne]

/-- One written line round-trips: parsing `formatEnvLine k v` recovers the
pair exactly, for a valid nonempty key and a round-trip-safe value. -/
theorem parseLine_formatEnvLine (k v : List Char) (hk : k ≠ [])
    (hkv : isValidKey k = true) (hv : roundtripValue v = true) :
    parseLine (formatEnvLine k v) = some (k, v) := by
  by_cases hq : needsQuoting v = true
  · have hform : formatEnvLine k v =
        k ++ '=' :: ('"' :: (escapeValue v ++ ['"'])) := by
      simp [formatEnvLine, hq]
    rw [hform]
    rw [parseLine_keyval k _ hk hkv ?_]
    · rw [parseValue_quoted]
    · intro c hc
      have hlast : ('"' :: (escapeValue v ++ ['"'])).getLast? = some '"' := by
        rw [show ('"' :: (escapeValue v ++ ['"'])) =
            ('"' :: escapeValue v) ++ ['"'] from by simp]
        exact List.getLast?_concat _
      rw [hlast] at hc
      obtain rfl : '"' = c := by injection hc
      decide
  · have hq' : needsQuoting v = false := by
      simpa using hq
    have hform : formatEnvLine k v = k ++ '=' :: v := by
      simp [formatEnvLine, hq']
    rw [hform]
    have hbb : (match v.getLast? with
        | some c => !goIsSpace c
        | none => true) = true := by
      unfold roundtripValue at hv
      rw [hq'] at hv
      exact (by simpa using hv : _ ∧ _).2
    rw [parseLine_keyval k v hk hkv ?_]
    · rw [parseValue_unquoted v hq' hv]
    · intro c hc
      rw [hc] at hbb
      simpa using hbb

theorem insertSorted_perm (x : List Char) (l : List (List Char)) :
    (insertSorted x l).Perm (x :: l) := by
  induction l with
  | nil => rfl
  | cons y ys ih =>
    unfold insertSorted
    by_cases h : listCharLe x y
    · rw [if_pos h]
    · rw [if_neg h]
      exact (ih.cons y).trans (List.Perm.swap x y ys)

theorem sortStrings_perm (l : List (List Char)) : (sortStrings l).Perm l := by
  induction l with
  | nil => rfl
  | cons a rest ih =>
    unfold sortStrings
    rw [List.foldr_cons]
    exact (insertSorted_perm a _).trans (ih.cons a)

theorem lookup_append_or {α β : Type} [BEq α] (l1 l2 : List (α × β)) (k : α) :
    (l1 ++ l2).lookup k = (l1.lookup k).or (l2.lookup k) := by
  induction l1 with
  | nil => simp [List.lookup]
  | cons a rest ih =>
    cases hk : k == a.1 with
    | true => simp [List.lookup, hk]
    | false => simp [List.lookup, hk, ih]

theorem lookup_eq_none_of_not_mem_keys {α β : Type} [BEq α] [LawfulBEq α]
    (l : List (α × β)) (k : α) (h : ¬ k ∈ l.map Prod.fst) :
    l.lookup k = none := by
  induction l with
  | nil => rfl
  | cons a rest ih =>
    have h1 : ¬ k = a.1 := fun he => h (by simp [he])
    have h2 : ¬ k ∈ rest.map Prod.fst := fun hm => h (by simp [hm])
    simp [List.lookup, beq_eq_false_iff_ne.mpr h1, ih h2]

theorem lookup_eq_some_of_mem {α β : Type} [BEq α] [LawfulBEq α]
    (l : List (α × β)) (hnodup : (l.map Prod.fst).Nodup) (k : α) (v : β)
    (hm : (k, v) ∈ l) : l.lookup k = some v := by
  induction l with
  | nil => simp at hm
  | cons a rest ih =>
    rcases List.mem_cons.mp hm with he | hm'
    · rw [← he]
      simp [List.lookup]
    · have hnd := hnodup
      rw [List.map_cons] at hnd
      obtain ⟨hn1, hn2⟩ := List.nodup_cons.mp hnd
      have hka : ¬ k = a.1 := by
        intro he
        have hk1 : k ∈ rest.map Prod.fst :=
          List.mem_map.mpr ⟨(k, v), hm', rfl⟩
        rw [he] at hk1
        exact hn1 hk1
      simp [List.lookup, beq_eq_false_iff_ne.mpr hka]
      exact ih hn2 hm'

theorem lookup_mem {α β : Type} [BEq α] [LawfulBEq α]
    (l : List (α × β)) (k : α) (v : β) (h : l.lookup k = some v) :
    (k, v) ∈ l := by
  induction l with
  | nil => simp [List.lookup] at h
  | cons a rest ih =>
    by_cases hk : k == a.1
    · simp only [List.lookup, hk] at h
      have h1 : a.2 = v := by injection h
      have h2 : k = a.1 := by exact beq_iff_eq.mp hk
      have h3 : (k, v) = a := by
        rw [h2, ← h1]
      rw [h3]
      exact List.mem_cons_self a rest
    · simp only [List.lookup, Bool.not_eq_true] at h hk
      rw [hk] at h
      exact List.mem_cons_of_mem a (ih h)

theorem lookup_reverse_eq {α β : Type} [BEq α] [LawfulBEq α]
    (l : List (α × β)) (hnodup : (l.map Prod.fst).Nodup) (k : α) :
    l.reverse.lookup k = l.lookup k := by
  induction l with
  | nil => rfl
  | cons a rest ih =>
    have hnd0 := hnodup
    rw [List.map_cons] at hnd0
    have hnd := List.nodup_cons.mp hnd0
    rw [List.reverse_cons, lookup_append_or]
    by_cases hk : k = a.1
    · have hnr : ¬ k ∈ rest.reverse.map Prod.fst := by
        rw [hk]
        intro hmem
        exact hnd.1 (by
          rw [List.map_reverse] at hmem
          exact List.mem_reverse.mp hmem)
      rw [lookup_eq_none_of_not_mem_keys _ _ hnr]
      simp [List.lookup, beq_iff_eq.mpr hk, Option.none_or]
    · rw [ih hnd.2]
      simp [List.lookup, beq_eq_false_iff_ne.mpr hk, Option.or_none]

theorem lookup_map_pair (f : List Char → List Char) (l : List (List Char))
    (k : List Char) :
    (l.map (fun t => (t, f t))).lookup k =
      if k ∈ l then some (f k) else none := by
  induction l with
  | nil => simp [List.lookup]
  | cons a rest ih =>
    by_cases hk : k = a
    · subst hk
      simp [List.lookup]
    · rw [List.map_cons]
      simp only [List.lookup, beq_eq_false_iff_ne.mpr hk]
      rw [ih]
      simp [List.mem_cons, hk]

theorem parseEnvFile_fold_lookup (lines : List (List Char)) (k : List Char) :
    ∀ acc : List (List Char × List Char),
      (lines.foldl
        (fun acc line =>
          match parseLine line with
          | some kv => insertA acc kv.1 kv.2
          | none => acc)
        acc).lookup k =
      (((lines.filterMap parseLine).reverse).lookup k).or (acc.lookup k) := by
  induction lines with
  | nil =>
    intro acc
    simp [List.filterMap]
  | cons line rest ih =>
    intro acc
    rw [List.foldl_cons]
    cases hp : parseLine line with
    | none =>
      rw [List.filterMap_cons_none hp]
      simp only [hp]
      exact ih acc
    | some kv =>
      rw [List.filterMap_cons_some hp]
      simp only [hp]
      rw [ih (insertA acc kv.1 kv.2)]
      rw [List.reverse_cons, lookup_append_or, Option.or_assoc]
      congr 1
      by_cases hk : k = kv.1
      · subst hk
        rw [lookup_insertA_self]
        simp [List.lookup]
      · rw [lookup_insertA_ne _ _ _ _ hk]
        simp [List.lookup, beq_eq_false_iff_ne.mpr hk]

/-- Lookup in the parsed file equals lookup in the reversed list of parsed
line pairs. -/
theorem parseEnvFile_lookup (lines : List (List Char)) (k : List Char) :
    (ParseEnvFile lines).lookup k =
      ((lines.filterMap parseLine).reverse).lookup k := by
  unfold ParseEnvFile
  rw [parseEnvFile_fold_lookup lines k []]
  simp [List.lookup]

/-- Parsing the template block yields one pair per template key. -/
theorem filterMap_template_block (tpl : List (List Char × List Char))
    (g : List Char → List Char)
    (hc : ∀ e ∈ tpl, parseLine e.2 = none)
    (hk : ∀ e ∈ tpl, e.1 ≠ [] →
      parseLine (formatEnvLine e.1 (g e.1)) = some (e.1, g e.1)) :
    (tpl.flatMap (fun e =>
      if e.1 = [] then [e.2]
      else (if e.2 = [] then [] else [e.2]) ++
        [formatEnvLine e.1 (g e.1)])).filterMap parseLine =
    ((tpl.map Prod.fst).filter (fun k => k ≠ [])).map (fun t => (t, g t)) := by
  induction tpl with
  | nil => rfl
  | cons e rest ih =>
    have hce := hc e (by simp)
    have ihr := ih (fun e' he' => hc e' (by simp [he']))
      (fun e' he' => hk e' (by simp [he']))
    rw [List.flatMap_cons, List.filterMap_append, ihr]
    by_cases h1 : e.1 = []
    · rw [if_pos h1]
      have hfm : List.filterMap parseLine [e.2] = [] := by
        rw [List.filterMap_cons_none hce]
        rfl
      rw [hfm, List.nil_append, List.map_cons, List.filter_cons]
      simp [h1]
    · have hke := hk e (by simp) h1
      rw [if_neg h1]
      by_cases h2 : e.2 = []
      · rw [if_pos h2, List.nil_append]
        have hfm : List.filterMap parseLine [formatEnvLine e.1 (g e.1)] =
            [(e.1, g e.1)] := by
          rw [List.filterMap_cons_some hke]
          rfl
        rw [hfm, List.map_cons, List.filter_cons]
        simp [h1]
      · rw [if_neg h2]
        have hfm : List.filterMap parseLine
            (e.2 :: [formatEnvLine e.1 (g e.1)]) = [(e.1, g e.1)] := by
          rw [List.filterMap_cons_none hce, List.filterMap_cons_some hke]
          rfl
        have hsh : (e.2 :: ([] : List (List Char))) ++
            [formatEnvLine e.1 (g e.1)] = e.2 :: [formatEnvLine e.1 (g e.1)] := rfl
        rw [hsh, hfm, List.map_cons, List.filter_cons]
        simp [h1]

/-- Parsing the custom block yields one pair per extra key. -/
theorem filterMap_extra_block (ks : List (List Char))
    (g : List Char → List Char)
    (hk : ∀ t ∈ ks, parseLine (formatEnvLine t (g t)) = some (t, g t)) :
    (ks.map (fun t => formatEnvLine t (g t))).filterMap parseLine =
      ks.map (fun t => (t, g t)) := by
  induction ks with
  | nil => rfl
  | cons t rest ih =>
    rw [List.map_cons, List.filterMap_cons, hk t (by simp)]
    rw [ih (fun t' ht' => hk t' (by simp [ht']))]
    rfl

/-- No line of the fixed template is itself a key-value line. -/
theorem template_comments_parse_none : ∀ e ∈ envTemplate, parseLine e.2 = none := by
  decide

/-- Template keys are nonempty valid keys. -/
theorem template_keys_valid :
    ∀ t ∈ templateKeys, t ≠ [] ∧ isValidKey t = true := by
  decide

/-- The custom-section header lines parse to nothing. -/
theorem customHeader_parse_none : customHeader.filterMap parseLine = [] := by
  decide

/-- The template keys are distinct. -/
theorem templateKeys_nodup : templateKeys.Nodup := by
  decide

/-- C9 (amended): parsing the written file recovers every input pair whose
key is a valid nonempty key and whose value the writer either quotes or
leaves without Go white space at its ends; template keys absent from the
input additionally appear with the empty value. -/
theorem env_write_parse_roundtrip
    (m : List (List Char × List Char))
    (hnodup : (m.map Prod.fst).Nodup)
    (hkeys : ∀ kv ∈ m, kv.1 ≠ [] ∧ isValidKey kv.1 = true)
    (hvals : ∀ kv ∈ m, roundtripValue kv.2 = true) :
    (∀ kv ∈ m, (ParseEnvFile (WriteEnvFile m)).lookup kv.1 = some kv.2) ∧
    (∀ t ∈ templateKeys, ¬ t ∈ m.map Prod.fst →
       (ParseEnvFile (WriteEnvFile m)).lookup t = some []) := by
  have hval' : ∀ key : List Char,
      roundtripValue ((m.lookup key).getD []) = true := by
    intro key
    cases hl : m.lookup key with
    | none =>
      simp only [Option.getD_none]
      decide
    | some v =>
      simp only [Option.getD_some]
      exact hvals (key, v) (lookup_mem m key v hl)
  have hextra_valid : ∀ t ∈ findExtraKeys m, t ≠ [] ∧ isValidKey t = true := by
    intro t ht
    unfold findExtraKeys at ht
    have ht' := (sortStrings_perm _).mem_iff.mp ht
    have ht'' := List.mem_filter.mp ht'
    obtain ⟨kv, hkv, rfl⟩ := List.mem_map.mp ht''.1
    exact hkeys kv hkv
  have hplt : ∀ e ∈ envTemplate, e.1 ≠ [] →
      parseLine (formatEnvLine e.1 ((m.lookup e.1).getD [])) =
        some (e.1, (m.lookup e.1).getD []) := by
    intro e he h1
    have hmem : e.1 ∈ templateKeys := by
      unfold templateKeys
      exact List.mem_filter.mpr ⟨List.mem_map.mpr ⟨e, he, rfl⟩, by simp [h1]⟩
    have hv := template_keys_valid e.1 hmem
    exact parseLine_formatEnvLine e.1 _ hv.1 hv.2 (hval' e.1)
  have hple : ∀ t ∈ findExtraKeys m,
      parseLine (formatEnvLine t ((m.lookup t).getD [])) =
        some (t, (m.lookup t).getD []) := by
    intro t ht
    have hv := hextra_valid t ht
    exact parseLine_formatEnvLine t _ hv.1 hv.2 (hval' t)
  have hfm : (WriteEnvFile m).filterMap parseLine =
      templateKeys.map (fun t => (t, (m.lookup t).getD [])) ++
      (findExtraKeys m).map (fun t => (t, (m.lookup t).getD [])) := by
    unfold WriteEnvFile
    rw [List.filterMap_append]
    have hA := filterMap_template_block envTemplate
      (fun t => (m.lookup t).getD []) template_comments_parse_none hplt
    rw [hA]
    by_cases hext : findExtraKeys m = []
    · rw [hext]
      simp [templateKeys]
    · rw [if_neg hext, List.filterMap_append, customHeader_parse_none,
        List.nil_append]
      rw [filterMap_extra_block (findExtraKeys m)
        (fun t => (m.lookup t).getD []) hple]
      rfl
  have hnodup2 : ((templateKeys.map (fun t => (t, (m.lookup t).getD [])) ++
      (findExtraKeys m).map (fun t => (t, (m.lookup t).getD []))).map
        Prod.fst).Nodup := by
    have hks : (templateKeys.map (fun t => (t, (m.lookup t).getD [])) ++
        (findExtraKeys m).map (fun t => (t, (m.lookup t).getD []))).map
          Prod.fst = templateKeys ++ findExtraKeys m := by
      simp [Function.comp_def]
    rw [hks, List.nodup_append]
    refine ⟨templateKeys_nodup, ?_, ?_⟩
    · have h1 : ((m.map Prod.fst).filter
          (fun k => ¬ k ∈ templateKeys)).Nodup := hnodup.filter _
      exact ((sortStrings_perm _).nodup_iff).mpr h1
    · intro t ht1 ht2
      have hmem := (sortStrings_perm _).mem_iff.mp ht2
      have h2 := (List.mem_filter.mp hmem).2
      simp at h2
      exact h2 ht1
  constructor
  · intro kv hm
    rw [parseEnvFile_lookup, hfm, lookup_reverse_eq _ hnodup2,
      lookup_append_or]
    have hlk : m.lookup kv.1 = some kv.2 :=
      lookup_eq_some_of_mem m hnodup kv.1 kv.2 (by rw [Prod.mk.eta]; exact hm)
    by_cases ht : kv.1 ∈ templateKeys
    · rw [lookup_map_pair, if_pos ht, hlk]
      rfl
    · rw [lookup_map_pair, if_neg ht, lookup_map_pair]
      have hmem : kv.1 ∈ findExtraKeys m := by
        unfold findExtraKeys
        rw [(sortStrings_perm _).mem_iff]
        exact List.mem_filter.mpr
          ⟨List.mem_map.mpr ⟨kv, hm, rfl⟩, by simp [ht]⟩
      rw [if_pos hmem, hlk]
      rfl
  · intro t ht hnm
    rw [parseEnvFile_lookup, hfm, lookup_reverse_eq _ hnodup2,
      lookup_append_or]
    rw [lookup_map_pair, if_pos ht,
      lookup_eq_none_of_not_mem_keys m t hnm]
    rfl

/-- The single-pair map whose value is a vertical tab. -/
def cexEnvMap : List (List Char × List Char) := [(['A'], ['\x0B'])]

/-- Counterexample for C9: for the valid key `A` with value `"\x0B"`
(vertical tab), the writer leaves the value unquoted, the parser trims it
away, and the parsed map also contains the five template keys — so the
parsed map does not contain exactly the input pairs unchanged. -/
theorem env_roundtrip_counterexample :
    (ParseEnvFile (WriteEnvFile cexEnvMap)).lookup ['A'] = some [] ∧
    some ([] : List Char) ≠ some ['\x0B'] ∧
    (ParseEnvFile (WriteEnvFile cexEnvMap)).lookup
      (("PODMANVIEW_ADDR").toList) = some [] := by
  refine ⟨?_, by decide, ?_⟩ <;> decide

/-- A concrete two-pair map: one template key, one quoted plugin value. -/
def witnessEnvMap : List (List Char × List Char) :=
  [(("PODMANVIEW_ADDR").toList, (":8080").toList),
   (("PLUGIN_LED_X").toList, ("a b").toList)]

/-- Witness for C9: both pairs of the concrete map round-trip unchanged,
and an absent template key surfaces with the empty value. -/
theorem env_write_parse_roundtrip_witness :
    (ParseEnvFile (WriteEnvFile witnessEnvMap)).lookup
      (("PODMANVIEW_ADDR").toList) = some ((":8080").toList) ∧
    (ParseEnvFile (WriteEnvFile witnessEnvMap)).lookup
      (("PLUGIN_LED_X").toList) = some (("a b").toList) ∧
    (ParseEnvFile (WriteEnvFile witnessEnvMap)).lookup
      (("PODMANVIEW_SOCKET").toList) = some [] := by
  have h := env_write_parse_roundtrip witnessEnvMap (by decide) (by decide)
    (by decide)
  exact ⟨h.1 (("PODMANVIEW_ADDR").toList, (":8080").toList) (by decide),
    h.1 (("PLUGIN_LED_X").toList, ("a b").toList) (by decide),
    h.2 (("PODMANVIEW_SOCKET").toList) (by decide) (by decide)⟩
